import Mathlib

/-!
Verification development for the AthosCcompiler pipeline
(lexer → parser → resolver → TAC lowerer → assembly IR → stack pass →
legalization → emission).  Every definition below is a shallow embedding
of a function of the C++ sources; the theorems at the end of the file
settle the claims of the specification against those embeddings.

Conventions used throughout:
  - C++ `std::vector` is a Lean `List`; the scope stack of the resolver
    (a vector whose *back* is the innermost scope) is represented
    innermost-first, so `push_back`/`pop_back`/`back` become
    `cons`/`tail`/`head`.
  - C++ exceptions (`throw std::runtime_error`) become `Except.error`.
  - C++ mutation of a member buffer (the lowerer's instruction vector,
    the stack pass's offset map) becomes explicit state passing.
  - file-scope `static` state (the resolver's unique-name counter) is a
    threaded value: successive calls within one process chain the value.
-/

set_option maxRecDepth 4096

deriving instance DecidableEq for Except

namespace AthosC

/-- Token kinds, from `lexer.hpp`.  The copy of the enum inside
`lexer.cpp` is a strict prefix of this one (it stops at `ASSIGN`), so
the numeric values of the shared constructors agree. -/
inductive Token
  | IDENTIFIER | CONSTANT | INT | VOID | RETURN
  | OPARENTHESIS | CPARENTHESIS | OBRACE | CBRACE | SEMICOLON | SKIP
  | COMMENT | ML_COMMENT | MISMATCH | COMPLEMENT
  | NEGATION | DECREMENT | ADDITION | MULTIPLICATION | DIVISION
  | REMAINDER | NOT | AND | OR | EQUAL | NOTEQUAL
  | LESS | GREATER | LESSEQ | GREATEREQ | ASSIGN
  | IF | ELSE | COLON | QUESTION_MARK | DO | WHILE | FOR | BREAK | CONTINUE
  deriving DecidableEq, Repr

/-- A lexeme with its kind, position and line, from `lexer.hpp` (`struct Lex`). -/
structure Lex where
  word : String
  token : Token
  position : Int
  line : Int
  deriving DecidableEq, Repr

/-- `\w` of the lexer's regexes: letter, digit or underscore. -/
def isWordChar (c : Char) : Bool :=
  c.isAlpha || c.isDigit || c = '_'

/-- `[a-zA-Z_]`: the first character of an identifier. -/
def isIdentStart (c : Char) : Bool :=
  c.isAlpha || c = '_'

/-- `\s` of the lexer's regexes (space, tab, newline, vertical tab,
form feed, carriage return). -/
def isSpaceChar (c : Char) : Bool :=
  c = ' ' || c = '\t' || c = '\n' || c = Char.ofNat 11 || c = Char.ofNat 12 || c = '\r'

/-- Whole-string match of `\d+`. -/
def matchesDigits (cs : List Char) : Bool :=
  !cs.isEmpty && cs.all Char.isDigit

/-- Whole-string match of `[a-zA-Z_]\w*`. -/
def matchesIdent (cs : List Char) : Bool :=
  match cs with
  | [] => false
  | c :: rest => isIdentStart c && rest.all isWordChar

/-- Whole-string match of `^\s+$`. -/
def matchesSpaces (cs : List Char) : Bool :=
  !cs.isEmpty && cs.all isSpaceChar

/-- Whole-string match of `//.*` (`.` does not match a newline). -/
def matchesLineComment (cs : List Char) : Bool :=
  match cs with
  | '/' :: '/' :: rest => rest.all (fun c => c ≠ '\n')
  | _ => false

/-- Whole-string match of `/\*.*\*/` (single-line block comment). -/
def matchesBlockComment (cs : List Char) : Bool :=
  match cs with
  | '/' :: '*' :: rest =>
    rest.length ≥ 2 && rest.all (fun c => c ≠ '\n') &&
      (match rest.reverse with
       | '/' :: '*' :: _ => true
       | _ => false)
  | _ => false

/-- `wordToToken` of `lexer.cpp`: classify a whole word.  Note that the
keyword table stops at `int` / `void` / `return`: the loop-and-branch
keywords of `lexer.hpp` (`if`, `else`, `do`, `while`, `for`, `break`,
`continue`) are *not* recognised here and fall through to the
identifier rule, and `?`, `:` and `,` match nothing and yield
`MISMATCH`. -/
def wordToToken (word : String) : Token :=
  if word = "int" then .INT
  else if word = "void" then .VOID
  else if word = "return" then .RETURN
  else if word = "(" then .OPARENTHESIS
  else if word = ")" then .CPARENTHESIS
  else if word = String.mk [Char.ofNat 123] then .OBRACE
  else if word = String.mk [Char.ofNat 125] then .CBRACE
  else if word = ";" then .SEMICOLON
  else if word = "~" then .COMPLEMENT
  else if word = "--" then .DECREMENT
  else if word = "-" then .NEGATION
  else if word = "+" then .ADDITION
  else if word = "*" then .MULTIPLICATION
  else if word = "/" then .DIVISION
  else if word = "%" then .REMAINDER
  else if word = "&&" then .AND
  else if word = "||" then .OR
  else if word = "==" then .EQUAL
  else if word = "!=" then .NOTEQUAL
  else if word = "!" then .NOT
  else if word = "<" then .LESS
  else if word = ">" then .GREATER
  else if word = "<=" then .LESSEQ
  else if word = ">=" then .GREATEREQ
  else if word = "=" then .ASSIGN
  else if matchesDigits word.data then .CONSTANT
  else if matchesIdent word.data then .IDENTIFIER
  else if matchesSpaces word.data then .SKIP
  else if matchesLineComment word.data then .COMMENT
  else if matchesBlockComment word.data then .ML_COMMENT
  else .MISMATCH

/-- Longest prefix of `cs` whose characters satisfy `p`, with the rest. -/
def spanChars (p : Char → Bool) (cs : List Char) : List Char × List Char :=
  match cs with
  | [] => ([], [])
  | c :: rest =>
    if p c then
      let (pre, post) := spanChars p rest
      (c :: pre, post)
    else ([], cs)

/-- Match the anchored literal `lit` at the head of `cs`. -/
def matchLit (lit : List Char) (cs : List Char) : Option (List Char × List Char) :=
  if lit.isPrefixOf cs then some (lit, cs.drop lit.length) else none

/-- Match `^/\*([^*]|\*+[^*/])*\*+/`: a block comment closed by the first
`*/`.  Returns the comment text (with the delimiters) and the rest. -/
def matchBlockCommentBody (fuel : Nat) (acc : List Char) (cs : List Char) :
    Option (List Char × List Char) :=
  match fuel with
  | 0 => none
  | fuel + 1 =>
    match cs with
    | '*' :: '/' :: rest => some (acc.reverse ++ ['*', '/'], rest)
    | c :: rest => matchBlockCommentBody fuel (c :: acc) rest
    | [] => none

/-- Try the lexer's patterns, in the order of the `patterns` vector of
`lexer.cpp`, at the head of `cs`.  Returns the matched text, its kind
and the rest of the input. -/
def matchFirstPattern (cs : List Char) : Option (List Char × Token × List Char) :=
  match cs with
  | [] => none
  | c :: rest =>
    -- `^#[^\n]*`
    if c = '#' then
      let (pre, post) := spanChars (fun x => x ≠ '\n') rest
      some (c :: pre, .SKIP, post)
    -- `^//[^\n]*`
    else if cs.take 2 = ['/', '/'] then
      let (pre, post) := spanChars (fun x => x ≠ '\n') (cs.drop 2)
      some ('/' :: '/' :: pre, .COMMENT, post)
    -- `^/\*([^*]|\*+[^*/])*\*+/`
    else if cs.take 2 = ['/', '*'] then
      match matchBlockCommentBody cs.length [] (cs.drop 2) with
      | some (txt, post) => some ('/' :: '*' :: txt, .ML_COMMENT, post)
      | none =>
        -- the block-comment pattern failed: fall through to `^\/` (division)
        some (['/'], .DIVISION, rest)
    else if c = '(' then some ([c], .OPARENTHESIS, rest)
    else if c = ')' then some ([c], .CPARENTHESIS, rest)
    else if c = Char.ofNat 123 then some ([c], .OBRACE, rest)
    else if c = Char.ofNat 125 then some ([c], .CBRACE, rest)
    else if c = ';' then some ([c], .SEMICOLON, rest)
    else if c = '~' then some ([c], .COMPLEMENT, rest)
    else if cs.take 2 = ['-', '-'] then some (['-', '-'], .DECREMENT, cs.drop 2)
    else if c = '-' then some ([c], .NEGATION, rest)
    else if c = '+' then some ([c], .ADDITION, rest)
    else if c = '*' then some ([c], .MULTIPLICATION, rest)
    else if c = '/' then some ([c], .DIVISION, rest)
    else if c = '%' then some ([c], .REMAINDER, rest)
    else if cs.take 2 = ['&', '&'] then some (['&', '&'], .AND, cs.drop 2)
    else if cs.take 2 = ['|', '|'] then some (['|', '|'], .OR, cs.drop 2)
    else if cs.take 2 = ['=', '='] then some (['=', '='], .EQUAL, cs.drop 2)
    else if cs.take 2 = ['!', '='] then some (['!', '='], .NOTEQUAL, cs.drop 2)
    else if c = '!' then some ([c], .NOT, rest)
    else if cs.take 2 = ['<', '='] then some (['<', '='], .LESSEQ, cs.drop 2)
    else if cs.take 2 = ['>', '='] then some (['>', '='], .GREATEREQ, cs.drop 2)
    else if c = '<' then some ([c], .LESS, rest)
    else if c = '>' then some ([c], .GREATER, rest)
    -- `^\d+[a-zA-Z_]\w*` : malformed numeric literal such as 123abc
    else if c.isDigit then
      let (digits, afterDigits) := spanChars Char.isDigit cs
      match afterDigits with
      | d :: _ =>
        if isIdentStart d then
          let (tailw, post) := spanChars isWordChar afterDigits
          some (digits ++ tailw, .MISMATCH, post)
        else some (digits, .CONSTANT, afterDigits)
      | [] => some (digits, .CONSTANT, afterDigits)
    -- `^[a-zA-Z_]\w*`
    else if isIdentStart c then
      let (pre, post) := spanChars isWordChar cs
      some (pre, .IDENTIFIER, post)
    -- `^\s+`
    else if isSpaceChar c then
      let (pre, post) := spanChars isSpaceChar cs
      some (pre, .SKIP, post)
    -- `^=`
    else if c = '=' then some ([c], .ASSIGN, rest)
    -- `^\S`
    else some ([c], .MISMATCH, rest)

/-- The scanning loop of `lexer` in `lexer.cpp`: consume the input with
`matchFirstPattern`, dropping whitespace and comments, reclassifying
identifier-shaped, constant-shaped and mismatch-shaped matches through
`wordToToken`, and failing on `MISMATCH`. -/
def lexLoop (fuel : Nat) (cs : List Char) (position : Int) (lineNumber : Int) :
    Except String (List Lex) :=
  match fuel with
  | 0 => if cs.isEmpty then .ok [] else .error "lexer out of fuel"
  | fuel + 1 =>
    match matchFirstPattern cs with
    | none => if cs.isEmpty then .ok [] else .error "Lexical error: could not match input"
    | some (txt, kind, rest) =>
      let newlines : Int := (txt.filter (fun c => c = '\n')).length
      if kind = .SKIP || kind = .COMMENT || kind = .ML_COMMENT then
        lexLoop fuel rest position (lineNumber + newlines)
      else
        let actual :=
          if kind = .IDENTIFIER || kind = .CONSTANT || kind = .MISMATCH then
            wordToToken (String.mk txt)
          else kind
        if actual = .MISMATCH then
          .error "Lexical error: invalid token"
        else do
          let tail ← lexLoop fuel rest (position + 1) (lineNumber + newlines)
          .ok ({ word := String.mk txt, token := actual, position := position,
                 line := lineNumber } :: tail)

/-- `lexer` of `lexer.cpp` on an in-memory source text (the file read and
the `\r`-stripping are the driver's job; tokens here start at position 0,
line 1). -/
def lexSource (input : String) : Except String (List Lex) :=
  lexLoop input.length (input.data.filter (fun c => c ≠ '\r')) 0 1

/-! ## AST (`ast.hpp`) -/

/-- Unary operators of the AST (`UnaryOpast`). -/
inductive UnaryOpast
  | COMPLEMENT | NEGATE | NOT
  deriving DecidableEq, Repr

/-- Binary operators of the AST (`BinaryOpast`). -/
inductive BinaryOpast
  | ADD | SUBTRACT | MULTIPLY | DIVIDE | REMAINDER | AND | OR
  | EQUAL | NOTEQUAL | LESSTHAN | LESSEQ | GREATERTHAN | GREATEREQ
  deriving DecidableEq, Repr

/-- Expressions (`class Expression` of `ast.hpp`); the C++ class carries a
`type` tag and nullable children, which a sum type renders directly. -/
inductive Expression
  | constant (value : Int)
  | unary (un_op : UnaryOpast) (operand : Expression)
  | binary (bin_op : BinaryOpast) (operand1 operand2 : Expression)
  | var (identifier : String)
  | assignment (exp1 exp2 : Expression)
  | conditional (condition trueExpr falseExpr : Expression)
  deriving DecidableEq, Repr

/-- `ExpressionType::VAR` test: whether an expression node is a `Var`. -/
def Expression.isVar : Expression → Bool
  | .var _ => true
  | _ => false

/-- A variable declaration (`class Declaration`). -/
structure Declaration where
  name : String
  initializer : Option Expression
  deriving DecidableEq, Repr

/-- A `for` initializer (`class ForInit`): declaration or optional expression. -/
inductive ForInit
  | initDecl (decl : Declaration)
  | initExp (expr : Option Expression)
  deriving DecidableEq, Repr

mutual

/-- Statements (`class Statement` of `ast.hpp`), one constructor per
`StatementType`; loops carry the resolver-assigned `label`. -/
inductive Statement
  | ret (expression : Expression)
  | exprStmt (expression : Expression)
  | nullStmt
  | ifStmt (condition : Expression) (thenBranch : Statement) (elseBranch : Option Statement)
  | compound (block : Block)
  | whileStmt (label : String) (condition : Expression) (body : Statement)
  | doWhileStmt (label : String) (condition : Expression) (body : Statement)
  | forStmt (label : String) (forInit : Option ForInit) (condition postExpr : Option Expression)
      (body : Statement)
  | breakStmt (label : String)
  | continueStmt (label : String)
  deriving Repr

/-- A block item (`class BlockItem`): statement or declaration. -/
inductive BlockItem
  | stmt (statement : Statement)
  | decl (declaration : Declaration)
  deriving Repr

/-- A compound block (`class Block`). -/
inductive Block
  | mk (items : List BlockItem)
  deriving Repr

end

/-- The items of a block. -/
def Block.items : Block → List BlockItem
  | .mk items => items

/-- A function definition (`class Function`). -/
structure Function where
  name : String
  body : Block
  deriving Repr

/-- The root program node (`class Program`). -/
structure Program where
  function : Function
  deriving Repr

/-! ## Parser (`parser.cpp`)

The token cursor (`current` into the token vector) is represented by the
remaining token list; `peek` past the end yields the same dummy
`Lex("", MISMATCH, -1)` the C++ returns.  The recursive-descent functions
take a fuel argument; every theorem about them quantifies over the fuel
shape it needs. -/

/-- `Parser::peek`: the next token, or the `MISMATCH` dummy at the end. -/
def peekTok (ts : List Lex) : Lex :=
  match ts with
  | [] => { word := "", token := .MISMATCH, position := -1, line := 0 }
  | t :: _ => t

/-- `Parser::getPrecedence`: precedence of a binary operator token
(`-1` for non-operators). -/
def getPrecedence (token : Token) : Int :=
  match token with
  | .ADDITION | .NEGATION => 45
  | .MULTIPLICATION | .DIVISION | .REMAINDER => 50
  | .LESS | .LESSEQ | .GREATER | .GREATEREQ => 35
  | .EQUAL | .NOTEQUAL => 30
  | .AND => 10
  | .OR => 5
  | .QUESTION_MARK => 3
  | .ASSIGN => 1
  | _ => -1

/-- `Parser::tokenToBinaryOp`; the C++ throws on any other token. -/
def tokenToBinaryOp (token : Token) : Except String BinaryOpast :=
  match token with
  | .ADDITION => .ok .ADD
  | .NEGATION => .ok .SUBTRACT
  | .MULTIPLICATION => .ok .MULTIPLY
  | .DIVISION => .ok .DIVIDE
  | .REMAINDER => .ok .REMAINDER
  | .AND => .ok .AND
  | .OR => .ok .OR
  | .EQUAL => .ok .EQUAL
  | .NOTEQUAL => .ok .NOTEQUAL
  | .LESS => .ok .LESSTHAN
  | .LESSEQ => .ok .LESSEQ
  | .GREATER => .ok .GREATERTHAN
  | .GREATEREQ => .ok .GREATEREQ
  | _ => .error "Unexpected binary operator token"

/-- `Parser::tokenToUnaryOp`; the C++ throws on any other token. -/
def tokenToUnaryOp (token : Token) : Except String UnaryOpast :=
  match token with
  | .COMPLEMENT => .ok .COMPLEMENT
  | .NEGATION => .ok .NEGATE
  | .NOT => .ok .NOT
  | _ => .error "Unexpected unary operator token"

/-- `std::stoi` on the all-digit lexeme of a `CONSTANT` token. -/
def stoiDigits (s : String) : Int :=
  s.data.foldl (fun acc c => acc * 10 + (c.toNat - 48 : Int)) 0

mutual

/-- `Parser::parseFactor`: integer literal, identifier, unary-prefixed
factor, or parenthesized expression. -/
def parseFactor (fuel : Nat) (ts : List Lex) : Except String (Expression × List Lex) :=
  match fuel with
  | 0 => .error "parser out of fuel"
  | fuel + 1 =>
    let currentToken := peekTok ts
    if currentToken.token = .CONSTANT then
      .ok (.constant (stoiDigits currentToken.word), ts.tail)
    else if currentToken.token = .IDENTIFIER then
      .ok (.var currentToken.word, ts.tail)
    else if currentToken.token = .COMPLEMENT || currentToken.token = .NEGATION ||
        currentToken.token = .NOT then do
      let unop ← tokenToUnaryOp currentToken.token
      let (operand, ts1) ← parseFactor fuel ts.tail
      .ok (.unary unop operand, ts1)
    else if currentToken.token = .OPARENTHESIS then do
      let (inner, ts1) ← parseExpression fuel 0 ts.tail
      if (peekTok ts1).token = .CPARENTHESIS then
        .ok (inner, ts1.tail)
      else .error "Expected closing parenthesis after expression"
    else .error "Unexpected token in expression"

/-- `Parser::parseExpression`: precedence climbing; parse a factor, then
fold operators with `parseExpressionLoop`. -/
def parseExpression (fuel : Nat) (minPrecedence : Int) (ts : List Lex) :
    Except String (Expression × List Lex) :=
  match fuel with
  | 0 => .error "parser out of fuel"
  | fuel + 1 => do
    let (left, ts1) ← parseFactor fuel ts
    parseExpressionLoop fuel minPrecedence left ts1

/-- The `while (true)` operator loop inside `Parser::parseExpression`.
A ternary reads both branches at threshold 1; `=` recurses at its own
precedence (right-associative) and wraps **whatever** `left` is in an
`assignment` node; other operators recurse one level tighter. -/
def parseExpressionLoop (fuel : Nat) (minPrecedence : Int) (left : Expression)
    (ts : List Lex) : Except String (Expression × List Lex) :=
  match fuel with
  | 0 => .error "parser out of fuel"
  | fuel + 1 =>
    let opToken := peekTok ts
    if opToken.token = .QUESTION_MARK then
      if minPrecedence > getPrecedence .QUESTION_MARK then .ok (left, ts)
      else do
        let (trueExpr, ts1) ← parseExpression fuel 1 ts.tail
        if (peekTok ts1).token = .COLON then do
          let (falseExpr, ts2) ← parseExpression fuel 1 ts1.tail
          parseExpressionLoop fuel minPrecedence (.conditional left trueExpr falseExpr) ts2
        else .error "Expected colon in conditional expression"
    else
      let precedence := getPrecedence opToken.token
      if precedence < minPrecedence then .ok (left, ts)
      else if opToken.token = .ASSIGN then do
        let (right, ts1) ← parseExpression fuel precedence ts.tail
        parseExpressionLoop fuel minPrecedence (.assignment left right) ts1
      else do
        let bop ← tokenToBinaryOp opToken.token
        let (right, ts1) ← parseExpression fuel (precedence + 1) ts.tail
        parseExpressionLoop fuel minPrecedence (.binary bop left right) ts1

end

/-! ## Resolver (`validate.cpp` / `validate.hpp`)

`VarMap` is an association list standing for `std::unordered_map`; keys
are unique because an entry is only added after a failed `find`.  The
scope stack is innermost-first (list head = vector back).  The
`static int counter` of `generateUniqueName` is process-global state and
is threaded explicitly: two successive compiles chain the value. -/

/-- A single scope: user name → unique name (`VarMap` of `validate.hpp`). -/
abbrev VarMap := List (String × String)

/-- `generateUniqueName` of `validate.hpp`: mints `base_N` from the
file-scope `static int counter` and bumps it. -/
def generateUniqueName (baseName : String) (counter : Nat) : String × Nat :=
  (baseName ++ "_" ++ Nat.repr counter, counter + 1)

/-- `resolve_variable_name`: walk the scope stack innermost-first
(`rbegin → rend` on the vector); `none` stands for the
undeclared-variable error. -/
def resolve_variable_name (name : String) (scopes : List VarMap) : Option String :=
  match scopes with
  | [] => none
  | m :: outer =>
    match m.lookup name with
    | some u => some u
    | none => resolve_variable_name name outer

/-- `resolve_exp` of `validate.cpp`: rename variables and assignment
left-hand sides; a non-`Var` assignment LHS is a semantic error. -/
def resolve_exp (expr : Expression) (scopes : List VarMap) : Except String Expression :=
  match expr with
  | .constant v => .ok (.constant v)
  | .var identifier =>
    match resolve_variable_name identifier scopes with
    | some uniqueName => .ok (.var uniqueName)
    | none => .error "Semantic error: use of undeclared variable"
  | .unary op operand => do
    let sub ← resolve_exp operand scopes
    .ok (.unary op sub)
  | .binary op e1 e2 => do
    let left ← resolve_exp e1 scopes
    let right ← resolve_exp e2 scopes
    .ok (.binary op left right)
  | .assignment exp1 exp2 =>
    match exp1 with
    | .var identifier =>
      match resolve_variable_name identifier scopes with
      | some uniqueName => do
        let rhs ← resolve_exp exp2 scopes
        .ok (.assignment (.var uniqueName) rhs)
      | none => .error "Semantic error: use of undeclared variable"
    | _ => .error "Semantic error: left-hand side of assignment must be a variable"
  | .conditional c t f => do
    let cond ← resolve_exp c scopes
    let thenExpr ← resolve_exp t scopes
    let elseExpr ← resolve_exp f scopes
    .ok (.conditional cond thenExpr elseExpr)

/-- `resolve_declaration`: duplicate check in the **innermost** map only,
then install `original → unique` there and resolve the initializer in the
updated scopes (so a declaration is visible inside its own initializer,
as in the C++). -/
def resolve_declaration (decl : Declaration) (scopes : List VarMap) (counter : Nat) :
    Except String (Declaration × List VarMap × Nat) :=
  match scopes with
  | [] => .error "Semantic error: empty scope stack"
  | current :: outer =>
    if (current.lookup decl.name).isSome then
      .error "Semantic error: variable is already declared in this scope"
    else
      let (uniqueName, counter1) := generateUniqueName decl.name counter
      let scopes1 := ((decl.name, uniqueName) :: current) :: outer
      match decl.initializer with
      | none => .ok ({ name := uniqueName, initializer := none }, scopes1, counter1)
      | some init => do
        let init1 ← resolve_exp init scopes1
        .ok ({ name := uniqueName, initializer := some init1 }, scopes1, counter1)

mutual

/-- `resolve_statement` of `validate.cpp`: rename expressions, label loops
with a fresh `loop_N`, bind `break`/`continue` to `currentLoopLabel`
(empty string = not inside a loop, an error). -/
def resolve_statement (stmt : Statement) (scopes : List VarMap) (currentLoopLabel : String)
    (counter : Nat) : Except String (Statement × Nat) :=
  match stmt with
  | .ret e => do
    let e1 ← resolve_exp e scopes
    .ok (.ret e1, counter)
  | .exprStmt e => do
    let e1 ← resolve_exp e scopes
    .ok (.exprStmt e1, counter)
  | .nullStmt => .ok (.nullStmt, counter)
  | .ifStmt c t els => do
    let c1 ← resolve_exp c scopes
    let (t1, counter1) ← resolve_statement t scopes currentLoopLabel counter
    match els with
    | none => .ok (.ifStmt c1 t1 none, counter1)
    | some e => do
      let (e1, counter2) ← resolve_statement e scopes currentLoopLabel counter1
      .ok (.ifStmt c1 t1 (some e1), counter2)
  | .compound b => do
    let (b1, counter1) ← resolve_block b scopes currentLoopLabel counter
    .ok (.compound b1, counter1)
  | .whileStmt _ c body => do
    let (loopLabel, counter1) := generateUniqueName "loop" counter
    let c1 ← resolve_exp c scopes
    let (body1, counter2) ← resolve_statement body scopes loopLabel counter1
    .ok (.whileStmt loopLabel c1 body1, counter2)
  | .doWhileStmt _ c body => do
    let (loopLabel, counter1) := generateUniqueName "loop" counter
    let c1 ← resolve_exp c scopes
    let (body1, counter2) ← resolve_statement body scopes loopLabel counter1
    .ok (.doWhileStmt loopLabel c1 body1, counter2)
  | .forStmt _ init c post body => do
    let (loopLabel, counter1) := generateUniqueName "loop" counter
    -- scopes.push_back({}): the for header opens a nested scope
    let scopes1 := ([] : VarMap) :: scopes
    let (init1, scopes2, counter2) ←
      (match init with
       | none => .ok ((none : Option ForInit), scopes1, counter1)
       | some (.initDecl d) => do
         let (d1, scopes2, c2) ← resolve_declaration d scopes1 counter1
         .ok (some (.initDecl d1), scopes2, c2)
       | some (.initExp none) => .ok (some (.initExp none), scopes1, counter1)
       | some (.initExp (some e)) => do
         let e1 ← resolve_exp e scopes1
         .ok (some (.initExp (some e1)), scopes1, counter1) :
        Except String (Option ForInit × List VarMap × Nat))
    let c1 ←
      (match c with
       | none => .ok none
       | some ce => do
         let ce1 ← resolve_exp ce scopes2
         .ok (some ce1) : Except String (Option Expression))
    let post1 ←
      (match post with
       | none => .ok none
       | some pe => do
         let pe1 ← resolve_exp pe scopes2
         .ok (some pe1) : Except String (Option Expression))
    let (body1, counter3) ← resolve_statement body scopes2 loopLabel counter2
    -- scopes.pop_back(): leave the for header scope
    .ok (.forStmt loopLabel init1 c1 post1 body1, counter3)
  | .breakStmt _ =>
    if currentLoopLabel = "" then .error "Semantic error: break or continue outside of a loop"
    else .ok (.breakStmt currentLoopLabel, counter)
  | .continueStmt _ =>
    if currentLoopLabel = "" then .error "Semantic error: break or continue outside of a loop"
    else .ok (.continueStmt currentLoopLabel, counter)

/-- `resolve_block`: enter a new scope, resolve the items, leave it. -/
def resolve_block (block : Block) (scopes : List VarMap) (currentLoopLabel : String)
    (counter : Nat) : Except String (Block × Nat) :=
  match block with
  | .mk items => do
    let (items1, _, counter1) ←
      resolve_block_items items (([] : VarMap) :: scopes) currentLoopLabel counter
    .ok (.mk items1, counter1)

/-- The item loop of `resolve_block`: declarations extend the innermost
scope for the items after them, statements leave the scopes unchanged. -/
def resolve_block_items (items : List BlockItem) (scopes : List VarMap)
    (currentLoopLabel : String) (counter : Nat) :
    Except String (List BlockItem × List VarMap × Nat) :=
  match items with
  | [] => .ok ([], scopes, counter)
  | item :: rest =>
    match item with
    | .decl d => do
      let (d1, scopes1, c1) ← resolve_declaration d scopes counter
      let (rest1, scopes2, c2) ← resolve_block_items rest scopes1 currentLoopLabel c1
      .ok (.decl d1 :: rest1, scopes2, c2)
    | .stmt s => do
      let (s1, c1) ← resolve_statement s scopes currentLoopLabel counter
      let (rest1, scopes2, c2) ← resolve_block_items rest scopes currentLoopLabel c1
      .ok (.stmt s1 :: rest1, scopes2, c2)

end

/-- `resolve_function`: one outer scope for the function, then the body
block (which pushes its own). -/
def resolve_function (fn : Function) (counter : Nat) : Except String (Function × Nat) := do
  let (body1, counter1) ← resolve_block fn.body [([] : VarMap)] "" counter
  .ok ({ name := fn.name, body := body1 }, counter1)

/-- `resolve_program`: resolve the single function. -/
def resolve_program (program : Program) (counter : Nat) : Except String (Program × Nat) := do
  let (fn1, counter1) ← resolve_function program.function counter
  .ok ({ function := fn1 }, counter1)

/-! ## TACKY IR (`tacky.hpp`) -/

namespace tacky

/-- TAC values (`tacky::Val`): constant or named variable. -/
inductive Val
  | constant (value : Int)
  | var (name : String)
  deriving DecidableEq, Repr

/-- TAC unary operators (`tacky::UnaryOp`). -/
inductive UnaryOp
  | Complement | Negate | Not
  deriving DecidableEq, Repr

/-- TAC binary operators (`tacky::BinaryOp`). -/
inductive BinaryOp
  | ADD | SUBTRACT | MULTIPLY | DIVIDE | REMAINDER
  | EQUAL | NOTEQUAL | LESSTHAN | LESSEQ | GREATERTHAN | GREATEREQ
  | AND | OR
  deriving DecidableEq, Repr

/-- TAC instructions (`tacky::Instruction` and subclasses). -/
inductive Instruction
  | ret (value : Val)
  | unary (op : UnaryOp) (src dst : Val)
  | binary (op : BinaryOp) (src1 src2 dst : Val)
  | copy (src dst : Val)
  | jump (target : String)
  | jumpIfZero (condition : Val) (target : String)
  | jumpIfNotZero (condition : Val) (target : String)
  | label (name : String)
  deriving DecidableEq, Repr

/-- A TAC function (`tacky::Function`). -/
structure Function where
  name : String
  body : List Instruction
  deriving DecidableEq, Repr

/-- A TAC program (`tacky::Program`). -/
structure Program where
  function : Function
  deriving DecidableEq, Repr

end tacky

/-! ## TAC Lowerer (`lowerer.cpp` / `lowerer.hpp`)

The `Lowerer` object's mutable members (`tempCounter`, `labelCounter`
and the `instructions` buffer) become an explicit state record.  Note
that these counters are per-`Lowerer`-object in the C++ (not `static`). -/

/-- State of a `Lowerer` object. -/
structure LowererState where
  tempCounter : Nat
  labelCounter : Nat
  instructions : List tacky.Instruction
  deriving DecidableEq, Repr

/-- The initial state of a freshly constructed `Lowerer`. -/
def LowererState.init : LowererState :=
  { tempCounter := 0, labelCounter := 0, instructions := [] }

/-- `Lowerer::newTemp`. -/
def newTemp (st : LowererState) : String × LowererState :=
  ("%tmp" ++ Nat.repr st.tempCounter, { st with tempCounter := st.tempCounter + 1 })

/-- `Lowerer::newLabel`. -/
def newLabel (base : String) (st : LowererState) : String × LowererState :=
  (base ++ "_" ++ Nat.repr st.labelCounter, { st with labelCounter := st.labelCounter + 1 })

/-- Push one instruction onto the buffer (`instructions.push_back`). -/
def emit (i : tacky.Instruction) (st : LowererState) : LowererState :=
  { st with instructions := st.instructions ++ [i] }

/-- `Lowerer::toTackyBinaryOp`; `AND` and `OR` reach the `default:` throw
(they are handled by short-circuit lowering before this is called). -/
def toTackyBinaryOp (op : BinaryOpast) : Except String tacky.BinaryOp :=
  match op with
  | .ADD => .ok .ADD
  | .SUBTRACT => .ok .SUBTRACT
  | .MULTIPLY => .ok .MULTIPLY
  | .DIVIDE => .ok .DIVIDE
  | .REMAINDER => .ok .REMAINDER
  | .EQUAL => .ok .EQUAL
  | .NOTEQUAL => .ok .NOTEQUAL
  | .LESSTHAN => .ok .LESSTHAN
  | .LESSEQ => .ok .LESSEQ
  | .GREATERTHAN => .ok .GREATERTHAN
  | .GREATEREQ => .ok .GREATEREQ
  | .AND | .OR => .error "Invalid BinaryOpast in toTackyBinaryOp"

/-- `Lowerer::lowerExpression`.  The C++ dispatches on the populated
fields in source order: binary (with the `&&`/`||` short-circuit forms
first), constant, variable, assignment-to-variable, conditional, unary;
an assignment whose LHS is not a variable reaches the final
`throw std::runtime_error("Unhandled expression type")`. -/
def lowerExpression (expr : Expression) (st : LowererState) :
    Except String (tacky.Val × LowererState) :=
  match expr with
  | .binary op a b =>
    if op = .AND then do
      let (v1, st1) ← lowerExpression a st
      let (result, st2) := newTemp st1
      let (falseLabel, st3) := newLabel "false" st2
      let (endLabel, st4) := newLabel "end" st3
      let st5 := emit (.jumpIfZero v1 falseLabel) st4
      let (v2, st6) ← lowerExpression b st5
      let st7 := emit (.jumpIfZero v2 falseLabel) st6
      let st8 := emit (.copy (.constant 1) (.var result)) st7
      let st9 := emit (.jump endLabel) st8
      let st10 := emit (.label falseLabel) st9
      let st11 := emit (.copy (.constant 0) (.var result)) st10
      let st12 := emit (.label endLabel) st11
      .ok (.var result, st12)
    else if op = .OR then do
      let (v1, st1) ← lowerExpression a st
      let (result, st2) := newTemp st1
      let (trueLabel, st3) := newLabel "true" st2
      let (endLabel, st4) := newLabel "end" st3
      let st5 := emit (.jumpIfNotZero v1 trueLabel) st4
      let (v2, st6) ← lowerExpression b st5
      let st7 := emit (.jumpIfNotZero v2 trueLabel) st6
      let st8 := emit (.copy (.constant 0) (.var result)) st7
      let st9 := emit (.jump endLabel) st8
      let st10 := emit (.label trueLabel) st9
      let st11 := emit (.copy (.constant 1) (.var result)) st10
      let st12 := emit (.label endLabel) st11
      .ok (.var result, st12)
    else do
      let (lhs, st1) ← lowerExpression a st
      let (rhs, st2) ← lowerExpression b st1
      let (tmpName, st3) := newTemp st2
      let top ← toTackyBinaryOp op
      let st4 := emit (.binary top lhs rhs (.var tmpName)) st3
      .ok (.var tmpName, st4)
  | .constant value => .ok (.constant value, st)
  | .var identifier => .ok (.var identifier, st)
  | .assignment exp1 exp2 =>
    match exp1 with
    | .var lhsName => do
      let (v, st1) ← lowerExpression exp2 st
      let st2 := emit (.copy v (.var lhsName)) st1
      .ok (.var lhsName, st2)
    | _ => .error "Unhandled expression type"
  | .conditional c t f => do
    let (dst, st1) := newTemp st
    let (elseLabel, st2) := newLabel "cond_else" st1
    let (endLabel, st3) := newLabel "cond_end" st2
    let (condVal, st4) ← lowerExpression c st3
    let st5 := emit (.jumpIfZero condVal elseLabel) st4
    let (trueVal, st6) ← lowerExpression t st5
    let st7 := emit (.copy trueVal (.var dst)) st6
    let st8 := emit (.jump endLabel) st7
    let st9 := emit (.label elseLabel) st8
    let (falseVal, st10) ← lowerExpression f st9
    let st11 := emit (.copy falseVal (.var dst)) st10
    let st12 := emit (.label endLabel) st11
    .ok (.var dst, st12)
  | .unary unOp operand => do
    let (src, st1) ← lowerExpression operand st
    let (tmpName, st2) := newTemp st1
    let op : tacky.UnaryOp :=
      match unOp with
      | .COMPLEMENT => .Complement
      | .NEGATE => .Negate
      | .NOT => .Not
    let st3 := emit (.unary op src (.var tmpName)) st2
    .ok (.var tmpName, st3)

mutual

/-- `Lowerer::lowerStatement`.  The `switch` covers `RETURN`,
`EXPRESSION`, `IF`, `COMPOUND` and `NULL_STMT` only: a `WHILE`,
`DO_WHILE`, `FOR`, `BREAK` or `CONTINUE` statement matches no case and
falls through the switch, leaving the state untouched and raising no
error. -/
def lowerStatement (stmt : Statement) (st : LowererState) : Except String LowererState :=
  match stmt with
  | .ret e => do
    let (val, st1) ← lowerExpression e st
    .ok (emit (.ret val) st1)
  | .exprStmt e => do
    let (_, st1) ← lowerExpression e st
    .ok st1
  | .ifStmt c t els => do
    let (condVal, st1) ← lowerExpression c st
    let (elseLabel, st2) := newLabel "else" st1
    let (endLabel, st3) := newLabel "endif" st2
    match els with
    | some e => do
      let st4 := emit (.jumpIfZero condVal elseLabel) st3
      let st5 ← lowerStatement t st4
      let st6 := emit (.jump endLabel) st5
      let st7 := emit (.label elseLabel) st6
      let st8 ← lowerStatement e st7
      .ok (emit (.label endLabel) st8)
    | none => do
      let st4 := emit (.jumpIfZero condVal endLabel) st3
      let st5 ← lowerStatement t st4
      let st6 := emit (.jump endLabel) st5
      .ok (emit (.label endLabel) st6)
  | .compound b => lowerBlock b st
  | .nullStmt => .ok st
  | .whileStmt _ _ _ => .ok st
  | .doWhileStmt _ _ _ => .ok st
  | .forStmt _ _ _ _ _ => .ok st
  | .breakStmt _ => .ok st
  | .continueStmt _ => .ok st

/-- `Lowerer::lowerBlock`: lower each item in order. -/
def lowerBlock (block : Block) (st : LowererState) : Except String LowererState :=
  match block with
  | .mk items => lowerBlockItems items st

/-- The item loop of `Lowerer::lowerBlock`. -/
def lowerBlockItems (items : List BlockItem) (st : LowererState) :
    Except String LowererState :=
  match items with
  | [] => .ok st
  | item :: rest => do
    let st1 ← lowerBlockItem item st
    lowerBlockItems rest st1

/-- `Lowerer::lowerBlockItem`: statements are lowered; declarations emit
a `Copy` when they carry an initializer, nothing otherwise. -/
def lowerBlockItem (item : BlockItem) (st : LowererState) : Except String LowererState :=
  match item with
  | .stmt s => lowerStatement s st
  | .decl d =>
    match d.initializer with
    | some init => do
      let (val, st1) ← lowerExpression init st
      .ok (emit (.copy val (.var d.name)) st1)
    | none => .ok st

end

/-- `Lowerer::lower`: lower the function body of a freshly constructed
`Lowerer` and wrap it; nothing is appended after the body (in
particular, no synthetic `Return`). -/
def lower (astProgram : Program) : Except String tacky.Program := do
  let st ← lowerBlock astProgram.function.body LowererState.init
  .ok { function := { name := astProgram.function.name, body := st.instructions } }

/-! ## Assembly IR (`asdl.hpp` / `asdl.cpp`) -/

/-- Registers (`enum class Reg`). -/
inductive Reg
  | AX | DX | R10 | R11
  deriving DecidableEq, Repr

/-- Assembly unary operators (`enum class UnaryOperator`). -/
inductive UnaryOperator
  | NEG | NOT
  deriving DecidableEq, Repr

/-- Assembly binary operators (`enum class BinaryOperator`). -/
inductive BinaryOperator
  | ADD | SUB | MULT
  deriving DecidableEq, Repr

/-- Condition codes (`enum class CondNode`). -/
inductive CondNode
  | E | NE | G | GE | L | LE
  deriving DecidableEq, Repr

/-- Operands (`class Operand` and subclasses). -/
inductive Operand
  | imm (value : Int)
  | register (reg : Reg)
  | pseudo (identifier : String)
  | stack (value : Int)
  deriving DecidableEq, Repr

/-- `dynamic_cast<Imm*>` test. -/
def Operand.isImm : Operand → Bool
  | .imm _ => true
  | _ => false

/-- `dynamic_cast<Stack*>` test (a memory operand). -/
def Operand.isStack : Operand → Bool
  | .stack _ => true
  | _ => false

/-- `dynamic_cast<Pseudo*>` test. -/
def Operand.isPseudo : Operand → Bool
  | .pseudo _ => true
  | _ => false

/-- `dynamic_cast<Register*>` test. -/
def Operand.isRegister : Operand → Bool
  | .register _ => true
  | _ => false

/-- Assembly instructions (`class Instruction` and subclasses of
`asdl.hpp`).  `binary` carries the `std::variant<BinaryOperator, CondNode>`
of the C++ `Binary` class as a sum. -/
inductive AsmInstr
  | mov (src dst : Operand)
  | unary (op : UnaryOperator) (dst : Operand)
  | binary (op : BinaryOperator ⊕ CondNode) (src dst : Operand)
  | cmp (lhs rhs : Operand)
  | idiv (dst : Operand)
  | cdq
  | jmp (name : String)
  | jmpCC (cond : CondNode) (name : String)
  | setCC (cond : CondNode) (op : Operand)
  | label (name : String)
  | allocateStack (value : Int)
  | ret
  deriving DecidableEq, Repr

/-- `std::to_string` on an `int`. -/
def intToString (i : Int) : String :=
  if i < 0 then "-" ++ Nat.repr i.natAbs else Nat.repr i.natAbs

/-- `AllocateStack::toASM`: `subq $<value>, %rsp`. -/
def allocateStackToASM (value : Int) : String :=
  "subq $" ++ intToString value ++ ", %rsp"

/-- `convertValToOperand`: TAC constant → `Imm`, TAC variable → `Pseudo`. -/
def convertValToOperand (val : tacky.Val) : Operand :=
  match val with
  | .constant c => .imm c
  | .var v => .pseudo v

/-- The body of the per-instruction `if`/`else if` chain of
`convertTackyToASDL`.  The C++ dereferences
`dynamic_cast<const tacky::Var*>(dst)` without a check for `Unary`
(complement/negate) and `Binary`, so a constant destination there is a
crash, modelled as an error. -/
def convertInstr (instr : tacky.Instruction) : Except String (List AsmInstr) :=
  match instr with
  | .ret v =>
    .ok [.mov (convertValToOperand v) (.register .AX), .ret]
  | .jump target => .ok [.jmp target]
  | .jumpIfZero condition target =>
    .ok [.cmp (.imm 0) (convertValToOperand condition), .jmpCC .E target]
  | .jumpIfNotZero condition target =>
    .ok [.cmp (.imm 0) (convertValToOperand condition), .jmpCC .NE target]
  | .copy src dst =>
    .ok [.mov (convertValToOperand src) (convertValToOperand dst)]
  | .label name => .ok [.label name]
  | .unary uop src dst =>
    match uop with
    | .Not =>
      .ok [.cmp (.imm 0) (convertValToOperand src),
           .mov (.imm 0) (convertValToOperand dst),
           .setCC .E (convertValToOperand dst)]
    | .Complement =>
      match dst with
      | .var dstName =>
        .ok [.mov (convertValToOperand src) (.pseudo dstName),
             .unary .NOT (.pseudo dstName)]
      | .constant _ => .error "convertTackyToASDL: Unary dst is not a Var"
    | .Negate =>
      match dst with
      | .var dstName =>
        .ok [.mov (convertValToOperand src) (.pseudo dstName),
             .unary .NEG (.pseudo dstName)]
      | .constant _ => .error "convertTackyToASDL: Unary dst is not a Var"
  | .binary bop src1 src2 dst =>
    match dst with
    | .constant _ => .error "convertTackyToASDL: Binary dst is not a Var"
    | .var dstName =>
      let s1 := convertValToOperand src1
      let s2 := convertValToOperand src2
      match bop with
      | .DIVIDE =>
        .ok [.mov s1 (.register .AX), .cdq, .idiv s2,
             .mov (.register .AX) (.pseudo dstName)]
      | .REMAINDER =>
        .ok [.mov s1 (.register .AX), .cdq, .idiv s2,
             .mov (.register .DX) (.pseudo dstName)]
      | .ADD =>
        .ok [.mov s1 (.pseudo dstName), .binary (.inl .ADD) s2 (.pseudo dstName)]
      | .SUBTRACT =>
        .ok [.mov s1 (.pseudo dstName), .binary (.inl .SUB) s2 (.pseudo dstName)]
      | .MULTIPLY =>
        .ok [.mov s1 (.pseudo dstName), .binary (.inl .MULT) s2 (.pseudo dstName)]
      | .EQUAL =>
        .ok [.cmp s2 s1, .mov (.imm 0) (.pseudo dstName), .setCC .E (.pseudo dstName)]
      | .NOTEQUAL =>
        .ok [.cmp s2 s1, .mov (.imm 0) (.pseudo dstName), .setCC .NE (.pseudo dstName)]
      | .LESSTHAN =>
        .ok [.cmp s2 s1, .mov (.imm 0) (.pseudo dstName), .setCC .L (.pseudo dstName)]
      | .LESSEQ =>
        .ok [.cmp s2 s1, .mov (.imm 0) (.pseudo dstName), .setCC .LE (.pseudo dstName)]
      | .GREATERTHAN =>
        .ok [.cmp s2 s1, .mov (.imm 0) (.pseudo dstName), .setCC .G (.pseudo dstName)]
      | .GREATEREQ =>
        .ok [.cmp s2 s1, .mov (.imm 0) (.pseudo dstName), .setCC .GE (.pseudo dstName)]
      | .AND | .OR => .error "Unknown RelationOp in BinaryOp"

/-- `convertTackyToASDL`: translate every TAC instruction into its
assembly expansion, in order, into one flat list. -/
def convertTackyToASDL (body : List tacky.Instruction) : Except String (List AsmInstr) :=
  match body with
  | [] => .ok []
  | instr :: rest =>
    match convertInstr instr with
    | .error e => .error e
    | .ok head =>
      match convertTackyToASDL rest with
      | .error e => .error e
      | .ok tail => .ok (head ++ tail)

/-! ## Pseudo → Stack pass (`replacePseudosWithStack`) -/

/-- The mutable locals of `replacePseudosWithStack`: the
`pseudoOffsets` map and the running `stackOffset` (which starts at `-4`
and decrements by 4 on each new pseudo name). -/
structure PassState where
  pseudoOffsets : List (String × Int)
  stackOffset : Int
  deriving DecidableEq, Repr

/-- `replaceIfPseudo`: a `Pseudo` operand is rewritten to the
`Stack` slot recorded for its name, recording a fresh slot first if the
name is new; any other operand is returned unchanged (the C++ returns
`nullptr` and the caller keeps the original). -/
def replaceIfPseudo (op : Operand) (st : PassState) : Operand × PassState :=
  match op with
  | .pseudo name =>
    match st.pseudoOffsets.lookup name with
    | some offset => (.stack offset, st)
    | none =>
      (.stack st.stackOffset,
       { pseudoOffsets := st.pseudoOffsets ++ [(name, st.stackOffset)],
         stackOffset := st.stackOffset - 4 })
  | _ => (op, st)

/-- The per-instruction branch of the loop in `replacePseudosWithStack`;
operand order matches the C++ (destination before source for `Mov` and
`Binary`, `lhs` before `rhs` for `Cmp`). -/
def replaceInInstr (instr : AsmInstr) (st : PassState) : AsmInstr × PassState :=
  match instr with
  | .unary op dst =>
    let (dst1, st1) := replaceIfPseudo dst st
    (.unary op dst1, st1)
  | .mov src dst =>
    let (dst1, st1) := replaceIfPseudo dst st
    let (src1, st2) := replaceIfPseudo src st1
    (.mov src1 dst1, st2)
  | .binary op src dst =>
    let (dst1, st1) := replaceIfPseudo dst st
    let (src1, st2) := replaceIfPseudo src st1
    (.binary op src1 dst1, st2)
  | .cmp lhs rhs =>
    let (lhs1, st1) := replaceIfPseudo lhs st
    let (rhs1, st2) := replaceIfPseudo rhs st1
    (.cmp lhs1 rhs1, st2)
  | .setCC cond dst =>
    let (dst1, st1) := replaceIfPseudo dst st
    (.setCC cond dst1, st1)
  | .idiv dst =>
    let (dst1, st1) := replaceIfPseudo dst st
    (.idiv dst1, st1)
  | other => (other, st)

/-- The instruction loop of `replacePseudosWithStack`. -/
def replacePseudosGo (instrs : List AsmInstr) (st : PassState) :
    List AsmInstr × PassState :=
  match instrs with
  | [] => ([], st)
  | instr :: rest =>
    let (instr1, st1) := replaceInInstr instr st
    let (rest1, st2) := replacePseudosGo rest st1
    (instr1 :: rest1, st2)

/-- `replacePseudosWithStack`: rewrite all pseudos to stack slots and
return `-stackOffset` (the C++ `return -stackOffset;`). -/
def replacePseudosWithStack (instrs : List AsmInstr) : List AsmInstr × Int :=
  let (rewritten, st) := replacePseudosGo instrs { pseudoOffsets := [], stackOffset := -4 }
  (rewritten, -st.stackOffset)

/-- `insertAllocateStack`: prepend `AllocateStack(-stackSize)` — note the
negation of the argument in `std::make_unique<AllocateStack>(-stackSize)`. -/
def insertAllocateStack (instrs : List AsmInstr) (stackSize : Int) : List AsmInstr :=
  .allocateStack (-stackSize) :: instrs

/-! ## Legalization pass (`legalizeMovMemoryToMemory`) -/

/-- The per-instruction branch of `legalizeMovMemoryToMemory`; the
`bin->getBinaryOperator()` call on a `Binary` holding a `CondNode`
throws `std::bad_variant_access`, modelled as an error. -/
def legalizeInstr (instr : AsmInstr) : Except String (List AsmInstr) :=
  match instr with
  | .mov src dst =>
    if src.isStack && dst.isStack then
      .ok [.mov src (.register .R10), .mov (.register .R10) dst]
    else .ok [.mov src dst]
  | .idiv operand =>
    if operand.isImm then
      .ok [.mov operand (.register .R10), .idiv (.register .R10)]
    else .ok [.idiv operand]
  | .binary bop src dst =>
    match bop with
    | .inr _ => .error "bad variant access in legalizeMovMemoryToMemory"
    | .inl op =>
      if (op = .ADD || op = .SUB) && src.isStack && dst.isStack then
        .ok [.mov src (.register .R10), .binary (.inl op) (.register .R10) dst]
      else if op = .MULT && src.isImm && dst.isStack then
        .ok [.mov dst (.register .R11), .binary (.inl op) src (.register .R11),
             .mov (.register .R11) dst]
      else if op = .MULT && src.isStack && dst.isStack then
        .ok [.mov dst (.register .R11), .mov src (.register .R10),
             .binary (.inl op) (.register .R10) (.register .R11),
             .mov (.register .R11) dst]
      else .ok [.binary (.inl op) src dst]
  | .cmp lhs rhs =>
    if lhs.isStack && rhs.isStack then
      .ok [.mov lhs (.register .R10), .cmp (.register .R10) rhs]
    else if lhs.isStack && rhs.isImm then
      .ok [.mov rhs (.register .R11), .cmp lhs (.register .R11)]
    else if lhs.isImm && rhs.isStack then
      .ok [.mov lhs (.register .R11), .cmp (.register .R11) rhs]
    else if lhs.isImm && rhs.isImm then
      .ok [.mov lhs (.register .R10), .cmp (.register .R10) rhs]
    else .ok [.cmp lhs rhs]
  | other => .ok [other]

/-- `legalizeMovMemoryToMemory`: rebuild the instruction list from the
per-instruction legalizations. -/
def legalizeMovMemoryToMemory (instrs : List AsmInstr) : Except String (List AsmInstr) :=
  match instrs with
  | [] => .ok []
  | instr :: rest =>
    match legalizeInstr instr with
    | .error e => .error e
    | .ok head =>
      match legalizeMovMemoryToMemory rest with
      | .error e => .error e
      | .ok tail => .ok (head ++ tail)

/-! ## Predicates for the assembly-IR claims -/

/-- An operand is an immediate or a pseudo (the only operand forms
`convertTackyToASDL` puts into `Cmp` operands, `Binary` sources and
`Binary` destinations). -/
def operandImmOrPseudo (op : Operand) : Bool :=
  op.isImm || op.isPseudo

/-- An operand is an immediate or a stack slot. -/
def operandImmOrStack (op : Operand) : Bool :=
  op.isImm || op.isStack

/-- Shape invariant of the instruction list produced by
`convertTackyToASDL`: every `Cmp` takes immediates or pseudos, every
`Binary` holds a `BinaryOperator` (never a `CondNode`), reads an
immediate or pseudo and writes a pseudo. -/
def postConvertInstrOk : AsmInstr → Bool
  | .cmp lhs rhs => operandImmOrPseudo lhs && operandImmOrPseudo rhs
  | .binary op src dst =>
    (match op with | .inl _ => true | .inr _ => false) &&
      operandImmOrPseudo src && dst.isPseudo
  | _ => true

/-- The same shape invariant after the pseudo → stack pass: pseudos have
become stack slots. -/
def postStackInstrOk : AsmInstr → Bool
  | .cmp lhs rhs => operandImmOrStack lhs && operandImmOrStack rhs
  | .binary op src dst =>
    (match op with | .inl _ => true | .inr _ => false) &&
      operandImmOrStack src && dst.isStack
  | _ => true

/-- The legality contract of the claim: no instruction with two memory
(`Stack`) operands, `Idiv` never takes an immediate, the second operand
of an emitted `cmpl` (the `lhs` field, printed second by `Cmp::toASM`)
is never an immediate, and multiply never targets memory. -/
def asmInstrLegal : AsmInstr → Bool
  | .mov src dst => !(src.isStack && dst.isStack)
  | .cmp lhs rhs => !(lhs.isStack && rhs.isStack) && !lhs.isImm
  | .binary op src dst =>
    !(src.isStack && dst.isStack) &&
      !((match op with | .inl .MULT => true | _ => false) && dst.isStack)
  | .idiv dst => !dst.isImm
  | _ => true

/-- Whether an instruction still contains a `Pseudo` operand. -/
def instrHasPseudo : AsmInstr → Bool
  | .mov src dst => src.isPseudo || dst.isPseudo
  | .unary _ dst => dst.isPseudo
  | .binary _ src dst => src.isPseudo || dst.isPseudo
  | .cmp lhs rhs => lhs.isPseudo || rhs.isPseudo
  | .idiv dst => dst.isPseudo
  | .setCC _ dst => dst.isPseudo
  | _ => false

/-- Append a pseudo operand's name to `seen` if it is new (formalizes the
claim's "first-seen order"). -/
def addPseudoName (op : Operand) (seen : List String) : List String :=
  match op with
  | .pseudo name => if seen.contains name then seen else seen ++ [name]
  | _ => seen

/-- The pseudo names first seen by one instruction, visited in the
operand order of `replacePseudosWithStack` (destination before source
for `Mov` and `Binary`, `lhs` before `rhs` for `Cmp`). -/
def instrPseudoSeen (instr : AsmInstr) (seen : List String) : List String :=
  match instr with
  | .unary _ dst => addPseudoName dst seen
  | .mov src dst => addPseudoName src (addPseudoName dst seen)
  | .binary _ src dst => addPseudoName src (addPseudoName dst seen)
  | .cmp lhs rhs => addPseudoName rhs (addPseudoName lhs seen)
  | .setCC _ dst => addPseudoName dst seen
  | .idiv dst => addPseudoName dst seen
  | _ => seen

/-- All distinct pseudo names of an instruction list, in first-seen
order. -/
def firstSeenPseudoNames (instrs : List AsmInstr) (seen : List String) : List String :=
  match instrs with
  | [] => seen
  | instr :: rest => firstSeenPseudoNames rest (instrPseudoSeen instr seen)

/-- The offset table that assigns `start`, `start - 4`, `start - 8`, …
to the given names in order. -/
def offsetsFrom (names : List String) (start : Int) : List (String × Int) :=
  match names with
  | [] => []
  | n :: rest => (n, start) :: offsetsFrom rest (start - 4)

/-! ## Helper lemmas about the pseudo-to-stack pass -/

/-- State invariant of the pass: the offset table maps the names seen so
far to `-4, -8, ...` in order, and the running offset sits just past the
last assigned slot. -/
def passStateInv (st : PassState) (seen : List String) : Prop :=
  st.pseudoOffsets = offsetsFrom seen (-4) ∧
    st.stackOffset = -4 - 4 * (seen.length : Int)

lemma offsetsFrom_append (xs ys : List String) (start : Int) :
    offsetsFrom (xs ++ ys) start =
      offsetsFrom xs start ++ offsetsFrom ys (start - 4 * xs.length) := by
  induction xs generalizing start with
  | nil => simp [offsetsFrom]
  | cons x rest ih =>
    have harith : start - 4 - 4 * (rest.length : Int) = start - 4 * ((x :: rest).length : Int) := by
      simp only [List.length_cons]
      push_cast
      ring
    calc offsetsFrom ((x :: rest) ++ ys) start
        = (x, start) :: offsetsFrom (rest ++ ys) (start - 4) := rfl
      _ = (x, start) ::
            (offsetsFrom rest (start - 4) ++ offsetsFrom ys (start - 4 - 4 * rest.length)) := by
          rw [ih]
      _ = offsetsFrom (x :: rest) start ++
            offsetsFrom ys (start - 4 * ((x :: rest).length : Int)) := by
          rw [harith]
          rfl

lemma lookup_offsetsFrom_eq_none (n : String) (names : List String) (start : Int) :
    ((offsetsFrom names start).lookup n = none) ↔ n ∉ names := by
  induction names generalizing start with
  | nil => simp [offsetsFrom]
  | cons m rest ih =>
    simp only [offsetsFrom, List.lookup, List.mem_cons]
    by_cases hnm : n = m
    · subst hnm
      simp
    · simp [beq_false_of_ne hnm, ih, hnm]

lemma lookup_offsetsFrom_get (names : List String) :
    ∀ (start : Int) (i : Nat) (hnd : names.Nodup) (hi : i < names.length),
      (offsetsFrom names start).lookup (names.get ⟨i, hi⟩) = some (start - 4 * i) := by
  induction names with
  | nil =>
    intro start i _ hi
    simp at hi
  | cons m rest ih =>
    intro start i hnd hi
    match i with
    | 0 => simp [offsetsFrom, List.lookup]
    | j + 1 =>
      have hj : j < rest.length := Nat.lt_of_succ_lt_succ hi
      have hget : (m :: rest).get ⟨j + 1, hi⟩ = rest.get ⟨j, hj⟩ := rfl
      have hmem : rest.get ⟨j, hj⟩ ∈ rest := List.get_mem rest j hj
      have hne : rest.get ⟨j, hj⟩ ≠ m := fun hc => (List.nodup_cons.mp hnd).1 (hc ▸ hmem)
      rw [hget]
      simp only [offsetsFrom, List.lookup, beq_false_of_ne hne]
      rw [ih (start - 4) j (List.nodup_cons.mp hnd).2 hj]
      congr 1
      push_cast
      ring

lemma addPseudoName_nodup (op : Operand) (seen : List String) (h : seen.Nodup) :
    (addPseudoName op seen).Nodup := by
  cases op with
  | pseudo name =>
    simp only [addPseudoName]
    split
    · exact h
    · rename_i hmem
      have hnm : name ∉ seen := by simpa using hmem
      rw [List.nodup_append]
      exact ⟨h, List.nodup_singleton _, fun x hx hx1 => hnm ((List.mem_singleton.mp hx1) ▸ hx)⟩
  | imm v => exact h
  | register r => exact h
  | stack v => exact h

lemma replaceIfPseudo_not_pseudo (op : Operand) (st : PassState) :
    ((replaceIfPseudo op st).1).isPseudo = false := by
  cases op with
  | pseudo name =>
    simp only [replaceIfPseudo]
    cases st.pseudoOffsets.lookup name <;> simp [Operand.isPseudo]
  | imm v => rfl
  | register r => rfl
  | stack v => rfl

lemma replaceIfPseudo_inv (op : Operand) (st : PassState) (seen : List String)
    (h : passStateInv st seen) :
    passStateInv (replaceIfPseudo op st).2 (addPseudoName op seen) := by
  obtain ⟨hoff, hstk⟩ := h
  cases op with
  | pseudo name =>
    by_cases hmem : name ∈ seen
    · have hlk : st.pseudoOffsets.lookup name ≠ none := fun hc => by
        rw [hoff, lookup_offsetsFrom_eq_none] at hc
        exact hc hmem
      obtain ⟨v, hv⟩ := Option.ne_none_iff_exists'.mp hlk
      have hcontains : seen.contains name = true := by simpa using hmem
      simp only [replaceIfPseudo, hv, addPseudoName, hcontains, if_true]
      exact ⟨hoff, hstk⟩
    · have hlk : st.pseudoOffsets.lookup name = none := by
        rw [hoff, lookup_offsetsFrom_eq_none]
        exact hmem
      have hcontains : seen.contains name = false := by simpa using hmem
      simp only [replaceIfPseudo, hlk, addPseudoName, hcontains, Bool.false_eq_true,
        if_false]
      constructor
      · show st.pseudoOffsets ++ [(name, st.stackOffset)] = offsetsFrom (seen ++ [name]) (-4)
        rw [hoff, hstk, offsetsFrom_append]
        simp [offsetsFrom]
      · show st.stackOffset - 4 = -4 - 4 * ((seen ++ [name]).length : Int)
        rw [hstk]
        simp only [List.length_append, List.length_cons, List.length_nil]
        push_cast
        ring
  | imm v => exact ⟨hoff, hstk⟩
  | register r => exact ⟨hoff, hstk⟩
  | stack v => exact ⟨hoff, hstk⟩

lemma replaceInInstr_inv (i : AsmInstr) (st : PassState) (seen : List String)
    (h : passStateInv st seen) :
    passStateInv (replaceInInstr i st).2 (instrPseudoSeen i seen) ∧
      instrHasPseudo (replaceInInstr i st).1 = false := by
  cases i with
  | unary op dst =>
    refine ⟨replaceIfPseudo_inv dst st seen h, ?_⟩
    simp [replaceInInstr, instrHasPseudo, replaceIfPseudo_not_pseudo]
  | mov src dst =>
    refine ⟨replaceIfPseudo_inv src _ _ (replaceIfPseudo_inv dst st seen h), ?_⟩
    simp [replaceInInstr, instrHasPseudo, replaceIfPseudo_not_pseudo]
  | binary op src dst =>
    refine ⟨replaceIfPseudo_inv src _ _ (replaceIfPseudo_inv dst st seen h), ?_⟩
    simp [replaceInInstr, instrHasPseudo, replaceIfPseudo_not_pseudo]
  | cmp lhs rhs =>
    refine ⟨replaceIfPseudo_inv rhs _ _ (replaceIfPseudo_inv lhs st seen h), ?_⟩
    simp [replaceInInstr, instrHasPseudo, replaceIfPseudo_not_pseudo]
  | setCC cond dst =>
    refine ⟨replaceIfPseudo_inv dst st seen h, ?_⟩
    simp [replaceInInstr, instrHasPseudo, replaceIfPseudo_not_pseudo]
  | idiv dst =>
    refine ⟨replaceIfPseudo_inv dst st seen h, ?_⟩
    simp [replaceInInstr, instrHasPseudo, replaceIfPseudo_not_pseudo]
  | cdq => exact ⟨h, rfl⟩
  | jmp name => exact ⟨h, rfl⟩
  | jmpCC cond name => exact ⟨h, rfl⟩
  | label name => exact ⟨h, rfl⟩
  | allocateStack v => exact ⟨h, rfl⟩
  | ret => exact ⟨h, rfl⟩

lemma replacePseudosGo_inv (instrs : List AsmInstr) (st : PassState) (seen : List String)
    (h : passStateInv st seen) :
    passStateInv (replacePseudosGo instrs st).2 (firstSeenPseudoNames instrs seen) ∧
      ((replacePseudosGo instrs st).1.all fun j => !instrHasPseudo j) = true := by
  induction instrs generalizing st seen with
  | nil => exact ⟨h, rfl⟩
  | cons i rest ih =>
    obtain ⟨h1, h2⟩ := replaceInInstr_inv i st seen h
    obtain ⟨h3, h4⟩ := ih (replaceInInstr i st).2 (instrPseudoSeen i seen) h1
    refine ⟨?_, ?_⟩
    · simpa [replacePseudosGo, firstSeenPseudoNames] using h3
    · simp [replacePseudosGo, List.all_cons, h2, h4]

lemma firstSeenPseudoNames_nodup (instrs : List AsmInstr) (seen : List String)
    (h : seen.Nodup) : (firstSeenPseudoNames instrs seen).Nodup := by
  induction instrs generalizing seen with
  | nil => exact h
  | cons i rest ih =>
    refine ih _ ?_
    cases i <;> simp only [instrPseudoSeen] <;>
      first
      | exact h
      | exact addPseudoName_nodup _ _ h
      | exact addPseudoName_nodup _ _ (addPseudoName_nodup _ _ h)

/-! ## Helper lemmas for the legalization claim -/

lemma convertValToOperand_immOrPseudo (v : tacky.Val) :
    operandImmOrPseudo (convertValToOperand v) = true := by
  cases v <;> rfl

lemma convertInstr_postOk (t : tacky.Instruction) (l : List AsmInstr)
    (h : convertInstr t = .ok l) : l.all postConvertInstrOk = true := by
  cases t with
  | ret v =>
    simp only [convertInstr, Except.ok.injEq] at h
    subst h
    rfl
  | jump target =>
    simp only [convertInstr, Except.ok.injEq] at h
    subst h
    rfl
  | jumpIfZero condition target =>
    simp only [convertInstr, Except.ok.injEq] at h
    subst h
    cases condition <;> rfl
  | jumpIfNotZero condition target =>
    simp only [convertInstr, Except.ok.injEq] at h
    subst h
    cases condition <;> rfl
  | copy src dst =>
    simp only [convertInstr, Except.ok.injEq] at h
    subst h
    rfl
  | label name =>
    simp only [convertInstr, Except.ok.injEq] at h
    subst h
    rfl
  | unary uop src dst =>
    cases uop with
    | Not =>
      simp only [convertInstr, Except.ok.injEq] at h
      subst h
      cases src <;> rfl
    | Complement =>
      cases dst with
      | constant c => simp [convertInstr] at h
      | var dstName =>
        simp only [convertInstr, Except.ok.injEq] at h
        subst h
        rfl
    | Negate =>
      cases dst with
      | constant c => simp [convertInstr] at h
      | var dstName =>
        simp only [convertInstr, Except.ok.injEq] at h
        subst h
        rfl
  | binary bop src1 src2 dst =>
    cases dst with
    | constant c => cases bop <;> simp [convertInstr] at h
    | var dstName =>
      cases bop with
      | AND => simp [convertInstr] at h
      | OR => simp [convertInstr] at h
      | DIVIDE =>
        simp only [convertInstr, Except.ok.injEq] at h
        subst h
        rfl
      | REMAINDER =>
        simp only [convertInstr, Except.ok.injEq] at h
        subst h
        rfl
      | ADD =>
        simp only [convertInstr, Except.ok.injEq] at h
        subst h
        cases src2 <;> rfl
      | SUBTRACT =>
        simp only [convertInstr, Except.ok.injEq] at h
        subst h
        cases src2 <;> rfl
      | MULTIPLY =>
        simp only [convertInstr, Except.ok.injEq] at h
        subst h
        cases src2 <;> rfl
      | EQUAL =>
        simp only [convertInstr, Except.ok.injEq] at h
        subst h
        cases src1 <;> cases src2 <;> rfl
      | NOTEQUAL =>
        simp only [convertInstr, Except.ok.injEq] at h
        subst h
        cases src1 <;> cases src2 <;> rfl
      | LESSTHAN =>
        simp only [convertInstr, Except.ok.injEq] at h
        subst h
        cases src1 <;> cases src2 <;> rfl
      | LESSEQ =>
        simp only [convertInstr, Except.ok.injEq] at h
        subst h
        cases src1 <;> cases src2 <;> rfl
      | GREATERTHAN =>
        simp only [convertInstr, Except.ok.injEq] at h
        subst h
        cases src1 <;> cases src2 <;> rfl
      | GREATEREQ =>
        simp only [convertInstr, Except.ok.injEq] at h
        subst h
        cases src1 <;> cases src2 <;> rfl

lemma convertTackyToASDL_postOk (body : List tacky.Instruction) (asm : List AsmInstr)
    (h : convertTackyToASDL body = .ok asm) : asm.all postConvertInstrOk = true := by
  induction body generalizing asm with
  | nil =>
    simp only [convertTackyToASDL, Except.ok.injEq] at h
    subst h
    rfl
  | cons t rest ih =>
    rw [convertTackyToASDL] at h
    cases hh : convertInstr t with
    | error e =>
      rw [hh] at h
      simp at h
    | ok head =>
      rw [hh] at h
      cases ht : convertTackyToASDL rest with
      | error e =>
        rw [ht] at h
        simp at h
      | ok tail =>
        rw [ht] at h
        simp only [Except.ok.injEq] at h
        subst h
        rw [List.all_append]
        simp [convertInstr_postOk t head hh, ih tail ht]

lemma replaceIfPseudo_immOrStack (op : Operand) (st : PassState)
    (h : operandImmOrPseudo op = true) :
    operandImmOrStack (replaceIfPseudo op st).1 = true := by
  cases op with
  | imm v => rfl
  | pseudo name =>
    simp only [replaceIfPseudo]
    cases st.pseudoOffsets.lookup name <;> rfl
  | register r => simp [operandImmOrPseudo, Operand.isImm, Operand.isPseudo] at h
  | stack v => simp [operandImmOrPseudo, Operand.isImm, Operand.isPseudo] at h

lemma replaceIfPseudo_stack_of_pseudo (op : Operand) (st : PassState)
    (h : op.isPseudo = true) : ((replaceIfPseudo op st).1).isStack = true := by
  cases op with
  | pseudo name =>
    simp only [replaceIfPseudo]
    cases st.pseudoOffsets.lookup name <;> rfl
  | imm v => simp [Operand.isPseudo] at h
  | register r => simp [Operand.isPseudo] at h
  | stack v => simp [Operand.isPseudo] at h

lemma replaceInInstr_postStack (i : AsmInstr) (st : PassState)
    (h : postConvertInstrOk i = true) :
    postStackInstrOk (replaceInInstr i st).1 = true := by
  cases i with
  | cmp lhs rhs =>
    simp only [postConvertInstrOk, Bool.and_eq_true] at h
    obtain ⟨h1, h2⟩ := h
    simp only [replaceInInstr, postStackInstrOk, Bool.and_eq_true]
    exact ⟨replaceIfPseudo_immOrStack lhs _ h1,
      replaceIfPseudo_immOrStack rhs _ h2⟩
  | binary op src dst =>
    simp only [postConvertInstrOk, Bool.and_eq_true] at h
    obtain ⟨⟨hop, hsrc⟩, hdst⟩ := h
    simp only [replaceInInstr, postStackInstrOk, Bool.and_eq_true]
    exact ⟨⟨hop, replaceIfPseudo_immOrStack src _ hsrc⟩,
      replaceIfPseudo_stack_of_pseudo dst _ hdst⟩
  | mov src dst => rfl
  | unary op dst => rfl
  | idiv dst => rfl
  | setCC cond dst => rfl
  | cdq => rfl
  | jmp name => rfl
  | jmpCC cond name => rfl
  | label name => rfl
  | allocateStack v => rfl
  | ret => rfl

lemma replacePseudosGo_postStack (instrs : List AsmInstr) (st : PassState)
    (h : instrs.all postConvertInstrOk = true) :
    ((replacePseudosGo instrs st).1).all postStackInstrOk = true := by
  induction instrs generalizing st with
  | nil => rfl
  | cons i rest ih =>
    rw [List.all_cons, Bool.and_eq_true] at h
    simp only [replacePseudosGo, List.all_cons, Bool.and_eq_true]
    exact ⟨replaceInInstr_postStack i st h.1, ih _ h.2⟩

lemma legalizeInstr_ok (i : AsmInstr) (h : postStackInstrOk i = true) :
    ∃ l, legalizeInstr i = .ok l ∧ l.all asmInstrLegal = true := by
  cases i with
  | mov src dst => cases src <;> cases dst <;> exact ⟨_, rfl, rfl⟩
  | idiv dst => cases dst <;> exact ⟨_, rfl, rfl⟩
  | cmp lhs rhs =>
    cases lhs <;> cases rhs <;>
      first
      | exact ⟨_, rfl, rfl⟩
      | simp [postStackInstrOk, operandImmOrStack, Operand.isImm, Operand.isStack] at h
  | binary op src dst =>
    cases op with
    | inr c => simp [postStackInstrOk] at h
    | inl bop =>
      cases src <;> cases dst <;> cases bop <;>
        first
        | exact ⟨_, rfl, rfl⟩
        | simp [postStackInstrOk, operandImmOrStack, Operand.isImm, Operand.isStack] at h
  | unary op dst => exact ⟨_, rfl, rfl⟩
  | setCC cond dst => exact ⟨_, rfl, rfl⟩
  | cdq => exact ⟨_, rfl, rfl⟩
  | jmp name => exact ⟨_, rfl, rfl⟩
  | jmpCC cond name => exact ⟨_, rfl, rfl⟩
  | label name => exact ⟨_, rfl, rfl⟩
  | allocateStack v => exact ⟨_, rfl, rfl⟩
  | ret => exact ⟨_, rfl, rfl⟩

lemma legalize_ok (instrs : List AsmInstr) (h : instrs.all postStackInstrOk = true) :
    ∃ out, legalizeMovMemoryToMemory instrs = .ok out ∧ out.all asmInstrLegal = true := by
  induction instrs with
  | nil => exact ⟨[], rfl, rfl⟩
  | cons i rest ih =>
    rw [List.all_cons, Bool.and_eq_true] at h
    obtain ⟨head, hhead, hleg⟩ := legalizeInstr_ok i h.1
    obtain ⟨tail, htail, htleg⟩ := ih h.2
    refine ⟨head ++ tail, ?_, ?_⟩
    · rw [legalizeMovMemoryToMemory, hhead, htail]
    · rw [List.all_append]
      simp [hleg, htleg]

/-! ## Helper lemmas for the expression-lowering claim -/

@[simp] lemma emit_instructions (i : tacky.Instruction) (st : LowererState) :
    (emit i st).instructions = st.instructions ++ [i] := rfl

@[simp] lemma newTemp_snd_instructions (st : LowererState) :
    (newTemp st).2.instructions = st.instructions := rfl

@[simp] lemma newLabel_snd_instructions (base : String) (st : LowererState) :
    (newLabel base st).2.instructions = st.instructions := rfl

lemma isPrefix_append_right {l1 l2 t : List tacky.Instruction} (h : l1 <+: l2) :
    l1 <+: l2 ++ t := h.trans (List.prefix_append _ _)

/-- Lowering an expression only ever appends to the instruction buffer. -/
lemma lowerExpression_prefix (e : Expression) :
    ∀ (st : LowererState) (v : tacky.Val) (st' : LowererState),
      lowerExpression e st = .ok (v, st') →
      st.instructions <+: st'.instructions := by
  induction e with
  | constant n =>
    intro st v st' h
    rw [lowerExpression] at h
    simp only [Except.ok.injEq, Prod.mk.injEq] at h
    rw [← h.2]
  | var x =>
    intro st v st' h
    rw [lowerExpression] at h
    simp only [Except.ok.injEq, Prod.mk.injEq] at h
    rw [← h.2]
  | unary op a iha =>
    intro st v st' h
    rw [lowerExpression.eq_def] at h
    simp only [bind, Except.bind] at h
    split at h
    next e heq => simp at h
    next p heq =>
      obtain ⟨va, st1⟩ := p
      simp only [Except.ok.injEq, Prod.mk.injEq] at h
      rw [← h.2]
      exact isPrefix_append_right ((iha st va st1 heq).trans (List.prefix_refl _))
  | binary op a b iha ihb =>
    intro st v st' h
    rw [lowerExpression] at h
    split at h
    · -- the short-circuit && form
      simp only [bind, Except.bind] at h
      split at h
      next e heq => simp at h
      next p heq =>
        obtain ⟨va, st1⟩ := p
        split at h
        next e heq2 => simp at h
        next q heq2 =>
          obtain ⟨vb, stb⟩ := q
          simp only [Except.ok.injEq, Prod.mk.injEq] at h
          rw [← h.2]
          have ha := iha st va st1 heq
          have hb := ihb _ vb stb heq2
          simp only [emit_instructions, newTemp_snd_instructions,
            newLabel_snd_instructions] at hb ⊢
          exact isPrefix_append_right (isPrefix_append_right (isPrefix_append_right
            (isPrefix_append_right (isPrefix_append_right (isPrefix_append_right
              (ha.trans ((List.prefix_append _ _).trans hb)))))))
    · split at h
      · -- the short-circuit || form
        simp only [bind, Except.bind] at h
        split at h
        next e heq => simp at h
        next p heq =>
          obtain ⟨va, st1⟩ := p
          split at h
          next e heq2 => simp at h
          next q heq2 =>
            obtain ⟨vb, stb⟩ := q
            simp only [Except.ok.injEq, Prod.mk.injEq] at h
            rw [← h.2]
            have ha := iha st va st1 heq
            have hb := ihb _ vb stb heq2
            simp only [emit_instructions, newTemp_snd_instructions,
              newLabel_snd_instructions] at hb ⊢
            exact isPrefix_append_right (isPrefix_append_right (isPrefix_append_right
              (isPrefix_append_right (isPrefix_append_right (isPrefix_append_right
                (ha.trans ((List.prefix_append _ _).trans hb)))))))
      · -- the ordinary binary operators
        simp only [bind, Except.bind] at h
        split at h
        next e heq => simp at h
        next p heq =>
          obtain ⟨va, st1⟩ := p
          split at h
          next e heq2 => simp at h
          next q heq2 =>
            obtain ⟨vb, stb⟩ := q
            split at h
            next e heq3 => simp at h
            next top heq3 =>
              simp only [Except.ok.injEq, Prod.mk.injEq] at h
              rw [← h.2]
              have ha := iha st va st1 heq
              have hb := ihb st1 vb stb heq2
              simp only [emit_instructions, newTemp_snd_instructions,
                newLabel_snd_instructions]
              exact isPrefix_append_right (ha.trans hb)
  | assignment e1 e2 ih1 ih2 =>
    intro st v st' h
    rw [lowerExpression.eq_def] at h
    cases e1 <;> simp only [bind, Except.bind] at h
    case var lhsName =>
      split at h
      next e heq => simp at h
      next p heq =>
        obtain ⟨vr, st1⟩ := p
        simp only [Except.ok.injEq, Prod.mk.injEq] at h
        rw [← h.2]
        exact isPrefix_append_right ((ih2 st vr st1 heq).trans (List.prefix_refl _))
    all_goals exact Except.noConfusion h
  | conditional c t f ihc iht ihf =>
    intro st v st' h
    rw [lowerExpression] at h
    simp only [bind, Except.bind] at h
    split at h
    next e heq => simp at h
    next p heq =>
      obtain ⟨vc, st4⟩ := p
      split at h
      next e heq2 => simp at h
      next q heq2 =>
        obtain ⟨vt, st6⟩ := q
        split at h
        next e heq3 => simp at h
        next r heq3 =>
          obtain ⟨vf, st10⟩ := r
          simp only [Except.ok.injEq, Prod.mk.injEq] at h
          rw [← h.2]
          have hc := ihc _ vc st4 heq
          have ht := iht _ vt st6 heq2
          have hf := ihf _ vf st10 heq3
          simp only [emit_instructions, newTemp_snd_instructions,
            newLabel_snd_instructions] at hc ht hf ⊢
          have step2 : st4.instructions <+: st6.instructions :=
            (List.prefix_append _ _).trans ht
          have step3 : st6.instructions <+: st10.instructions :=
            (isPrefix_append_right (isPrefix_append_right
              (List.prefix_append _ _))).trans hf
          exact isPrefix_append_right (isPrefix_append_right
            (((hc.trans step2).trans step3).trans (List.prefix_refl _)))

/-! ## Claim theorems -/

/-- C1 (code_bug evaluation): the TAC lowerer emits **nothing** for a
resolved `While(c, body, L)` statement — `Lowerer::lowerStatement`'s
switch has no `WHILE` case, so the statement falls through leaving the
instruction buffer untouched; likewise `Break(L)` and `Continue(L)`
lower to nothing rather than to `Jump("break_"+L)` / `Jump("start_"+L)`,
and a whole program whose body is one while loop lowers to an empty TAC
body, contradicting the claimed
`Label/JumpIfZero/body/Jump/Label` sequence. -/
theorem c1_while_lowering_emits_nothing (L : String) (c : Expression)
    (body : Statement) (st : LowererState) :
    lowerStatement (.whileStmt L c body) st = .ok st ∧
    lowerStatement (.breakStmt L) st = .ok st ∧
    lowerStatement (.continueStmt L) st = .ok st ∧
    lower (Program.mk (Function.mk "main"
        (.mk [.stmt (.whileStmt "loop_0" (.constant 1) .nullStmt)]))) =
      .ok { function := { name := "main", body := [] } } :=
  ⟨rfl, rfl, rfl, rfl⟩

/-- C2 (code_bug evaluation): `Lowerer::lower` appends no synthetic
`Return(Const 0)`.  A function body that falls off the end (an empty
body, or a body ending in a declaration) produces a TAC program whose
instruction list contains no `Return` at all, contradicting the claim
that every such program ends with `Return(Const 0)`. -/
theorem c2_no_synthetic_return :
    lower (Program.mk (Function.mk "main" (.mk []))) =
      .ok { function := { name := "main", body := [] } } ∧
    lower (Program.mk (Function.mk "main"
        (.mk [.decl (Declaration.mk "x_0" (some (.constant 3)))]))) =
      .ok (tacky.Program.mk (tacky.Function.mk "main"
        [.copy (.constant 3) (.var "x_0")])) :=
  ⟨rfl, rfl⟩

/-- C3 (code_bug evaluation): `wordToToken` in `lexer.cpp` reclassifies
only `int`, `void` and `return`; the lexemes `if`, `else`, `do`,
`while`, `for`, `break`, `continue` come out as `IDENTIFIER` (not as
the keyword kinds that `lexer.hpp` declares and `parser.cpp` consumes),
and the characters `?`, `:` and `,` match no pattern and raise a
lexical error instead of being emitted as punctuation kinds. -/
theorem c3_lexer_keywords_and_punctuation_missing :
    wordToToken "if" = .IDENTIFIER ∧ wordToToken "else" = .IDENTIFIER ∧
    wordToToken "do" = .IDENTIFIER ∧ wordToToken "while" = .IDENTIFIER ∧
    wordToToken "for" = .IDENTIFIER ∧ wordToToken "break" = .IDENTIFIER ∧
    wordToToken "continue" = .IDENTIFIER ∧
    wordToToken "int" = .INT ∧ wordToToken "void" = .VOID ∧
    wordToToken "return" = .RETURN ∧
    lexSource "while" =
      .ok [{ word := "while", token := .IDENTIFIER, position := 0, line := 1 }] ∧
    lexSource "?" = .error "Lexical error: invalid token" ∧
    lexSource ":" = .error "Lexical error: invalid token" ∧
    lexSource "," = .error "Lexical error: invalid token" := by
  decide

/-- The name of the first declaration of a program's body, used to
observe the resolver's output. -/
def firstDeclarationName (p : Program) : Option String :=
  match p.function.body with
  | .mk (.decl d :: _) => some d.name
  | _ => none

/-- C9 (counterexample): the resolver's fresh-name counter is the
file-scope `static int` of `generateUniqueName`, threaded here as
process state.  Resolving the same one-declaration program twice in
succession (the second compile starting from the counter value 1 left
by the first) renames `x` to `x_0` the first time and to `x_1` the
second: the two compiles do **not** produce identical resolved names. -/
theorem c9_counterexample_second_compile_differs :
    (resolve_program (Program.mk (Function.mk "main"
        (.mk [.decl (Declaration.mk "x" none)]))) 0).map
        (fun r => (firstDeclarationName r.1, r.2)) = .ok (some "x_0", 1) ∧
    (resolve_program (Program.mk (Function.mk "main"
        (.mk [.decl (Declaration.mk "x" none)]))) 1).map
        (fun r => (firstDeclarationName r.1, r.2)) = .ok (some "x_1", 2) ∧
    resolve_program (Program.mk (Function.mk "main"
        (.mk [.decl (Declaration.mk "x" none)]))) 0 ≠
      resolve_program (Program.mk (Function.mk "main"
        (.mk [.decl (Declaration.mk "x" none)]))) 1 := by
  refine ⟨by decide, by decide, fun h => ?_⟩
  have e0 : (resolve_program (Program.mk (Function.mk "main"
      (.mk [.decl (Declaration.mk "x" none)]))) 0).map
      (fun r => (firstDeclarationName r.1, r.2)) = .ok (some "x_0", 1) := by decide
  have e1 : (resolve_program (Program.mk (Function.mk "main"
      (.mk [.decl (Declaration.mk "x" none)]))) 1).map
      (fun r => (firstDeclarationName r.1, r.2)) = .ok (some "x_1", 2) := by decide
  rw [h, e1] at e0
  exact absurd e0 (by decide)

/-- C9 (amended): fresh-name state **is** process-global.
`generateUniqueName` appends the current value of its single counter
and bumps it, so a second compile of the same source within one process
continues where the first left off (counter 1) and produces the
resolved name `x_1` where the first produced `x_0`; two compiles agree
only when they start from equal counter values. -/
theorem c9_amended_counter_is_process_global :
    (∀ (baseName : String) (counter : Nat),
      generateUniqueName baseName counter =
        (baseName ++ "_" ++ Nat.repr counter, counter + 1)) ∧
    (resolve_program (Program.mk (Function.mk "main"
        (.mk [.decl (Declaration.mk "x" none)]))) 0).map
        (fun r => (firstDeclarationName r.1, r.2)) = .ok (some "x_0", 1) ∧
    (resolve_program (Program.mk (Function.mk "main"
        (.mk [.decl (Declaration.mk "x" none)]))) 1).map
        (fun r => (firstDeclarationName r.1, r.2)) = .ok (some "x_1", 2) := by
  exact ⟨fun baseName counter => rfl, by decide, by decide⟩

/-- C7: any instruction list obtained by converting a TAC body to the
assembly IR and running the pseudo-to-stack pass is fully legalized by
`legalizeMovMemoryToMemory`: the pass succeeds and afterwards no
instruction has two `Stack` operands, `Idiv` never takes an `Imm`, the
second operand of an emitted `cmpl` (the `lhs` field, printed second by
`Cmp::toASM`) is never an `Imm`, and multiply never targets memory. -/
theorem c7_post_legalization_legality (body : List tacky.Instruction)
    (asm : List AsmInstr) (h : convertTackyToASDL body = .ok asm) :
    ∃ out, legalizeMovMemoryToMemory ((replacePseudosWithStack asm).1) = .ok out ∧
      out.all asmInstrLegal = true :=
  legalize_ok _
    (replacePseudosGo_postStack asm _ (convertTackyToASDL_postOk body asm h))

/-- C7 witness: the pipeline run on the TAC for `return 1 && 2;`
(which contains comparisons, moves and pseudos). -/
theorem c7_post_legalization_legality_witness :
    ∃ out, legalizeMovMemoryToMemory
      ((replacePseudosWithStack
        [.mov (.imm 0) (.pseudo "%tmp0"),
         .cmp (.imm 0) (.pseudo "%tmp0"),
         .jmpCC .E "false_0",
         .mov (.imm 1) (.register .AX),
         .ret]).1) = .ok out ∧
      out.all asmInstrLegal = true :=
  c7_post_legalization_legality
    [.copy (.constant 0) (.var "%tmp0"),
     .jumpIfZero (.var "%tmp0") "false_0",
     .ret (.constant 1)]
    [.mov (.imm 0) (.pseudo "%tmp0"),
     .cmp (.imm 0) (.pseudo "%tmp0"),
     .jmpCC .E "false_0",
     .mov (.imm 1) (.register .AX),
     .ret]
    (by decide)

/-- C5: resolver scoping.  (i) Declaring a name already present in the
innermost scope map errors; (ii) declaring a name absent from the
innermost map succeeds — installing `original → unique` in that map and
bumping the counter — even when the name exists in an outer scope
(shadowing); (iii) a `Var` lookup that hits the innermost map uses it
(the inner name wins); (iv) on an innermost miss the walk continues
outward, so a `Var(x)` resolves to the closest enclosing declaration;
(v) a name found in no scope is an undeclared-variable error; (vi) an
assignment LHS resolves through the same innermost-first walk. -/
theorem c5_resolver_scope_discipline :
    (∀ (name : String) (init : Option Expression) (m : VarMap) (outer : List VarMap)
        (counter : Nat) (u : String),
      m.lookup name = some u →
      resolve_declaration (Declaration.mk name init) (m :: outer) counter =
        .error "Semantic error: variable is already declared in this scope") ∧
    (∀ (name : String) (m : VarMap) (outer : List VarMap) (counter : Nat),
      m.lookup name = none →
      resolve_declaration (Declaration.mk name none) (m :: outer) counter =
        .ok (Declaration.mk (name ++ "_" ++ Nat.repr counter) none,
          ((name, name ++ "_" ++ Nat.repr counter) :: m) :: outer, counter + 1)) ∧
    (∀ (x u : String) (inner : VarMap) (outer : List VarMap),
      inner.lookup x = some u →
      resolve_exp (.var x) (inner :: outer) = .ok (.var u)) ∧
    (∀ (x : String) (inner : VarMap) (outer : List VarMap),
      inner.lookup x = none →
      resolve_variable_name x (inner :: outer) = resolve_variable_name x outer) ∧
    (∀ (x : String) (scopes : List VarMap),
      resolve_variable_name x scopes = none →
      resolve_exp (.var x) scopes = .error "Semantic error: use of undeclared variable") ∧
    (∀ (x u : String) (e2 r : Expression) (inner : VarMap) (outer : List VarMap),
      inner.lookup x = some u →
      resolve_exp e2 (inner :: outer) = .ok r →
      resolve_exp (.assignment (.var x) e2) (inner :: outer) =
        .ok (.assignment (.var u) r)) := by
  refine ⟨?_, ?_, ?_, ?_, ?_, ?_⟩
  · intro name init m outer counter u hlk
    rw [resolve_declaration, hlk]
    rfl
  · intro name m outer counter hlk
    rw [resolve_declaration, hlk]
    rfl
  · intro x u inner outer hlk
    rw [resolve_exp, resolve_variable_name, hlk]
  · intro x inner outer hlk
    rw [resolve_variable_name, hlk]
  · intro x scopes hnone
    rw [resolve_exp, hnone]
  · intro x u e2 r inner outer hlk hr
    rw [resolve_exp, resolve_variable_name, hlk, hr]
    rfl

/-- C5 witness: a two-scope stack where `x` is declared in both scopes;
the inner declaration wins, re-declaring `x` in the inner scope errors,
declaring `y` (absent inside, present outside) succeeds, and an unknown
name errors. -/
theorem c5_resolver_scope_discipline_witness :
    resolve_declaration (Declaration.mk "x" none)
        ([("x", "x_0")] :: [[("y", "y_9")]]) 1 =
      .error "Semantic error: variable is already declared in this scope" ∧
    resolve_declaration (Declaration.mk "y" none)
        ([("x", "x_0")] :: [[("y", "y_9")]]) 1 =
      .ok (Declaration.mk "y_1" none,
        [("y", "y_1"), ("x", "x_0")] :: [[("y", "y_9")]], 2) ∧
    resolve_exp (.var "x") ([("x", "x_1")] :: [[("x", "x_0")]]) = .ok (.var "x_1") ∧
    resolve_variable_name "x" ([("y", "y_0")] :: [[("x", "x_0")]]) =
      resolve_variable_name "x" [[("x", "x_0")]] ∧
    resolve_exp (.var "z") [[("x", "x_0")]] =
      .error "Semantic error: use of undeclared variable" ∧
    resolve_exp (.assignment (.var "x") (.constant 2)) ([("x", "x_1")] :: [[("x", "x_0")]]) =
      .ok (.assignment (.var "x_1") (.constant 2)) := by
  refine ⟨c5_resolver_scope_discipline.1 "x" none [("x", "x_0")] [[("y", "y_9")]] 1 "x_0"
      (by decide),
    c5_resolver_scope_discipline.2.1 "y" [("x", "x_0")] [[("y", "y_9")]] 1 (by decide),
    c5_resolver_scope_discipline.2.2.1 "x" "x_1" [("x", "x_1")] [[("x", "x_0")]] (by decide),
    c5_resolver_scope_discipline.2.2.2.1 "x" [("y", "y_0")] [[("x", "x_0")]] (by decide),
    c5_resolver_scope_discipline.2.2.2.2.1 "z" [[("x", "x_0")]] (by decide),
    c5_resolver_scope_discipline.2.2.2.2.2 "x" "x_1" (.constant 2) (.constant 2)
      [("x", "x_1")] [[("x", "x_0")]] (by decide) (by decide)⟩

/-- C6: (i) when the next token is `=` and the minimum precedence admits
it (`minPrecedence ≤ 1`), the parser's operator loop consumes the `=`
and wraps **whatever** expression is on the left in an `assignment`
node — no check that the left operand is a `Var` — recursing at the
`=` operator's own precedence 1 (right-associative); (ii) `1 = 2`
parses to `Assign(IntLit 1, IntLit 2)`; (iii) `a = b = c` parses
right-associatively to `Assign(a, Assign(b, c))`; (iv) the resolver —
not the parser — rejects an `Assign` whose LHS is not a `Var`. -/
theorem c6_assignment_parsed_then_rejected_by_resolver :
    (∀ (fuel : Nat) (minPrecedence : Int) (left : Expression) (tk : Lex)
        (ts : List Lex) (right : Expression) (ts1 : List Lex),
      tk.token = .ASSIGN → minPrecedence ≤ 1 →
      parseExpression fuel 1 ts = .ok (right, ts1) →
      parseExpressionLoop (fuel + 1) minPrecedence left (tk :: ts) =
        parseExpressionLoop fuel minPrecedence (.assignment left right) ts1) ∧
    (parseExpression 8 0
        [Lex.mk "1" .CONSTANT 0 1, Lex.mk "=" .ASSIGN 1 1, Lex.mk "2" .CONSTANT 2 1] =
      .ok (.assignment (.constant 1) (.constant 2), [])) ∧
    (parseExpression 8 0
        [Lex.mk "a" .IDENTIFIER 0 1, Lex.mk "=" .ASSIGN 1 1, Lex.mk "b" .IDENTIFIER 2 1,
         Lex.mk "=" .ASSIGN 3 1, Lex.mk "c" .IDENTIFIER 4 1] =
      .ok (.assignment (.var "a") (.assignment (.var "b") (.var "c")), [])) ∧
    (∀ (e1 e2 : Expression) (scopes : List VarMap),
      e1.isVar = false →
      resolve_exp (.assignment e1 e2) scopes =
        .error "Semantic error: left-hand side of assignment must be a variable") := by
  refine ⟨?_, by decide, by decide, ?_⟩
  · intro fuel minPrecedence left tk ts right ts1 htk hle hright
    rw [parseExpressionLoop]
    simp only [show peekTok (tk :: ts) = tk from rfl, htk]
    rw [if_neg (by decide : ¬(Token.ASSIGN = Token.QUESTION_MARK))]
    rw [show getPrecedence Token.ASSIGN = (1 : Int) from rfl]
    rw [if_neg (show ¬((1 : Int) < minPrecedence) from by omega)]
    simp only [if_true]
    rw [show (tk :: ts).tail = ts from rfl, hright]
    rfl
  · intro e1 e2 scopes hnotvar
    cases e1 <;> first
      | rfl
      | simp [Expression.isVar] at hnotvar

/-- C6 witness: the loop lemma applied with a non-`Var` left operand
(`IntLit 7`), and the resolver rejection applied to `Assign(IntLit 1, IntLit 2)`. -/
theorem c6_assignment_parsed_then_rejected_witness :
    parseExpressionLoop 5 0 (.constant 7)
        [Lex.mk "=" .ASSIGN 0 1, Lex.mk "3" .CONSTANT 1 1] =
      parseExpressionLoop 4 0 (.assignment (.constant 7) (.constant 3)) [] ∧
    resolve_exp (.assignment (.constant 1) (.constant 2)) [] =
      .error "Semantic error: left-hand side of assignment must be a variable" :=
  ⟨c6_assignment_parsed_then_rejected_by_resolver.1 4 0 (.constant 7)
      (Lex.mk "=" .ASSIGN 0 1) [Lex.mk "3" .CONSTANT 1 1] (.constant 3) []
      rfl (by decide) (by decide),
    c6_assignment_parsed_then_rejected_by_resolver.2.2.2 (.constant 1) (.constant 2) []
      rfl⟩

/-- C4: inversion of `Lowerer::lowerExpression` on binary expressions.
For `op ∉ {&&, ||}` a successful lowering factors as: the instructions
of `a` (appended first), then the instructions of `b`, then exactly one
`Binary(op, va, vb, t)` with the fresh temporary
`t = %tmp<tempCounter>` as result.  For `&&` it factors as: code for
`a`; `JumpIfZero(va, false_lbl)`; code for `b` (placed **after** the
jump, so it is skipped at runtime when `va` is zero);
`JumpIfZero(vb, false_lbl)`; `Copy(Const 1, result)`; `Jump(end_lbl)`;
`Label(false_lbl)`; `Copy(Const 0, result)`; `Label(end_lbl)`, with
`result` returned. -/
theorem c4_binary_and_shortcircuit_lowering :
    (∀ (op : BinaryOpast) (a b : Expression) (st : LowererState)
        (v : tacky.Val) (st' : LowererState),
      op ≠ .AND → op ≠ .OR →
      lowerExpression (.binary op a b) st = .ok (v, st') →
      ∃ va st1 vb stb codeA codeB top,
        lowerExpression a st = .ok (va, st1) ∧
        st1.instructions = st.instructions ++ codeA ∧
        lowerExpression b st1 = .ok (vb, stb) ∧
        stb.instructions = st.instructions ++ codeA ++ codeB ∧
        toTackyBinaryOp op = .ok top ∧
        v = .var ("%tmp" ++ Nat.repr stb.tempCounter) ∧
        st' = { tempCounter := stb.tempCounter + 1, labelCounter := stb.labelCounter,
                instructions := st.instructions ++ codeA ++ codeB ++
                  [.binary top va vb (.var ("%tmp" ++ Nat.repr stb.tempCounter))] }) ∧
    (∀ (a b : Expression) (st : LowererState) (v : tacky.Val) (st' : LowererState),
      lowerExpression (.binary .AND a b) st = .ok (v, st') →
      ∃ va st1 vb stb codeA codeB,
        lowerExpression a st = .ok (va, st1) ∧
        st1.instructions = st.instructions ++ codeA ∧
        lowerExpression b
          { tempCounter := st1.tempCounter + 1, labelCounter := st1.labelCounter + 1 + 1,
            instructions := st1.instructions ++
              [.jumpIfZero va ("false" ++ "_" ++ Nat.repr st1.labelCounter)] } =
          .ok (vb, stb) ∧
        stb.instructions = st.instructions ++ codeA ++
          [.jumpIfZero va ("false" ++ "_" ++ Nat.repr st1.labelCounter)] ++ codeB ∧
        v = .var ("%tmp" ++ Nat.repr st1.tempCounter) ∧
        st' = { tempCounter := stb.tempCounter, labelCounter := stb.labelCounter,
                instructions := stb.instructions ++
                  [.jumpIfZero vb ("false" ++ "_" ++ Nat.repr st1.labelCounter),
                   .copy (.constant 1) (.var ("%tmp" ++ Nat.repr st1.tempCounter)),
                   .jump ("end" ++ "_" ++ Nat.repr (st1.labelCounter + 1)),
                   .label ("false" ++ "_" ++ Nat.repr st1.labelCounter),
                   .copy (.constant 0) (.var ("%tmp" ++ Nat.repr st1.tempCounter)),
                   .label ("end" ++ "_" ++ Nat.repr (st1.labelCounter + 1))] }) := by
  constructor
  · intro op a b st v st' hand hor h
    rw [lowerExpression] at h
    rw [if_neg hand, if_neg hor] at h
    simp only [bind, Except.bind] at h
    split at h
    next e heq => simp at h
    next p heq =>
      obtain ⟨va, st1⟩ := p
      split at h
      next e heq2 => simp at h
      next q heq2 =>
        obtain ⟨vb, stb⟩ := q
        split at h
        next e heq3 => simp at h
        next top heq3 =>
          simp only [Except.ok.injEq, Prod.mk.injEq] at h
          obtain ⟨hv, hst⟩ := h
          obtain ⟨codeA, hcodeA⟩ := lowerExpression_prefix a st va st1 heq
          obtain ⟨codeB, hcodeB⟩ := lowerExpression_prefix b st1 vb stb heq2
          refine ⟨va, st1, vb, stb, codeA, codeB, top, heq, hcodeA.symm, heq2, ?_,
            heq3, hv.symm, ?_⟩
          · rw [← hcodeB, ← hcodeA]
          · rw [← hst]
            simp only [emit, newTemp, LowererState.mk.injEq]
            refine ⟨trivial, trivial, ?_⟩
            rw [← hcodeB, ← hcodeA]
  · intro a b st v st' h
    rw [lowerExpression] at h
    rw [if_pos rfl] at h
    simp only [bind, Except.bind] at h
    split at h
    next e heq => simp at h
    next p heq =>
      obtain ⟨va, st1⟩ := p
      split at h
      next e heq2 => simp at h
      next q heq2 =>
        obtain ⟨vb, stb⟩ := q
        simp only [Except.ok.injEq, Prod.mk.injEq] at h
        obtain ⟨hv, hst⟩ := h
        obtain ⟨codeA, hcodeA⟩ := lowerExpression_prefix a st va st1 heq
        obtain ⟨codeB, hcodeB⟩ := lowerExpression_prefix b _ vb stb heq2
        refine ⟨va, st1, vb, stb, codeA, codeB, heq, hcodeA.symm, heq2, ?_, hv.symm, ?_⟩
        · rw [← hcodeB]
          simp only [emit, newTemp, newLabel]
          rw [← hcodeA]
        · rw [← hst]
          simp only [emit, newTemp, newLabel, LowererState.mk.injEq]
          refine ⟨trivial, trivial, ?_⟩
          simp [List.append_assoc]

/-- C4 witness: `1 + 2` (ordinary operator) and `1 && 2`
(short-circuit), lowered from a fresh state. -/
theorem c4_binary_and_shortcircuit_lowering_witness :
    (∃ va st1 vb stb codeA codeB top,
      lowerExpression (.constant 1) LowererState.init = .ok (va, st1) ∧
      st1.instructions = LowererState.init.instructions ++ codeA ∧
      lowerExpression (.constant 2) st1 = .ok (vb, stb) ∧
      stb.instructions = LowererState.init.instructions ++ codeA ++ codeB ∧
      toTackyBinaryOp .ADD = .ok top ∧
      tacky.Val.var "%tmp0" = .var ("%tmp" ++ Nat.repr stb.tempCounter) ∧
      ({ tempCounter := 1, labelCounter := 0,
         instructions := [.binary .ADD (.constant 1) (.constant 2) (.var "%tmp0")] }
          : LowererState) =
        { tempCounter := stb.tempCounter + 1, labelCounter := stb.labelCounter,
          instructions := LowererState.init.instructions ++ codeA ++ codeB ++
            [.binary top va vb (.var ("%tmp" ++ Nat.repr stb.tempCounter))] }) ∧
    (∃ va st1 vb stb codeA codeB,
      lowerExpression (.constant 1) LowererState.init = .ok (va, st1) ∧
      st1.instructions = LowererState.init.instructions ++ codeA ∧
      lowerExpression (.constant 2)
        { tempCounter := st1.tempCounter + 1, labelCounter := st1.labelCounter + 1 + 1,
          instructions := st1.instructions ++
            [.jumpIfZero va ("false" ++ "_" ++ Nat.repr st1.labelCounter)] } =
        .ok (vb, stb) ∧
      stb.instructions = LowererState.init.instructions ++ codeA ++
        [.jumpIfZero va ("false" ++ "_" ++ Nat.repr st1.labelCounter)] ++ codeB ∧
      tacky.Val.var "%tmp0" = .var ("%tmp" ++ Nat.repr st1.tempCounter) ∧
      ({ tempCounter := 1, labelCounter := 2,
         instructions :=
           [.jumpIfZero (.constant 1) "false_0",
            .jumpIfZero (.constant 2) "false_0",
            .copy (.constant 1) (.var "%tmp0"),
            .jump "end_1",
            .label "false_0",
            .copy (.constant 0) (.var "%tmp0"),
            .label "end_1"] } : LowererState) =
        { tempCounter := stb.tempCounter, labelCounter := stb.labelCounter,
          instructions := stb.instructions ++
            [.jumpIfZero vb ("false" ++ "_" ++ Nat.repr st1.labelCounter),
             .copy (.constant 1) (.var ("%tmp" ++ Nat.repr st1.tempCounter)),
             .jump ("end" ++ "_" ++ Nat.repr (st1.labelCounter + 1)),
             .label ("false" ++ "_" ++ Nat.repr st1.labelCounter),
             .copy (.constant 0) (.var ("%tmp" ++ Nat.repr st1.tempCounter)),
             .label ("end" ++ "_" ++ Nat.repr (st1.labelCounter + 1))] }) :=
  ⟨c4_binary_and_shortcircuit_lowering.1 .ADD (.constant 1) (.constant 2)
      LowererState.init (.var "%tmp0")
      { tempCounter := 1, labelCounter := 0,
        instructions := [.binary .ADD (.constant 1) (.constant 2) (.var "%tmp0")] }
      (by decide) (by decide) rfl,
    c4_binary_and_shortcircuit_lowering.2 (.constant 1) (.constant 2)
      LowererState.init (.var "%tmp0")
      { tempCounter := 1, labelCounter := 2,
        instructions :=
          [.jumpIfZero (.constant 1) "false_0",
           .jumpIfZero (.constant 2) "false_0",
           .copy (.constant 1) (.var "%tmp0"),
           .jump "end_1",
           .label "false_0",
           .copy (.constant 0) (.var "%tmp0"),
           .label "end_1"] }
      rfl⟩

/-- C8 (counterexample): on a body with no pseudos at all the pass
returns 4, not the 0 bytes actually needed (the claimed "total bytes
needed, rounded up to a multiple of 4"): the returned count is always
one 4-byte slot larger than what was assigned. -/
theorem c8_counterexample_overallocates :
    replacePseudosWithStack [AsmInstr.ret] = ([AsmInstr.ret], 4) ∧
    firstSeenPseudoNames [AsmInstr.ret] [] = [] ∧
    (replacePseudosWithStack [AsmInstr.ret]).2 ≠
      4 * (([] : List String).length : Int) := by
  decide

/-- C8 (amended): the pass assigns each distinct pseudo name the offsets
`-4, -8, -12, …` in first-seen order (distinct names get distinct
offsets), rewrites every pseudo occurrence so no `Pseudo` operand
remains, and returns `4·k + 4` where `k` is the number of distinct
pseudo names — 4 bytes **more** than the bytes assigned. -/
theorem c8_amended_stack_pass (instrs : List AsmInstr) :
    (∀ (i : Nat) (hi : i < (firstSeenPseudoNames instrs []).length),
      ((replacePseudosGo instrs
          { pseudoOffsets := [], stackOffset := -4 }).2.pseudoOffsets).lookup
          ((firstSeenPseudoNames instrs []).get ⟨i, hi⟩) =
        some (-(4 * ((i : Int) + 1)))) ∧
    ((replacePseudosWithStack instrs).1.all fun j => !instrHasPseudo j) = true ∧
    (replacePseudosWithStack instrs).2 =
      4 * (((firstSeenPseudoNames instrs []).length : Int)) + 4 := by
  obtain ⟨⟨hoff, hstk⟩, hnp⟩ :=
    replacePseudosGo_inv instrs { pseudoOffsets := [], stackOffset := -4 } []
      ⟨rfl, by norm_num⟩
  refine ⟨?_, hnp, ?_⟩
  · intro i hi
    rw [hoff, lookup_offsetsFrom_get _ _ i
      (firstSeenPseudoNames_nodup instrs [] List.nodup_nil) hi]
    congr 1
    ring
  · show -(replacePseudosGo instrs { pseudoOffsets := [], stackOffset := -4 }).2.stackOffset = _
    rw [hstk]
    ring

/-- C8 witness: a single `Mov` between two pseudos: `b` (the
destination, visited first) gets `-4`, `a` gets `-8`, no pseudo
remains, and the pass returns `12 = 4·2 + 4`. -/
theorem c8_amended_stack_pass_witness :
    0 < (firstSeenPseudoNames [AsmInstr.mov (.pseudo "a") (.pseudo "b")] []).length ∧
    ((replacePseudosGo [AsmInstr.mov (.pseudo "a") (.pseudo "b")]
        { pseudoOffsets := [], stackOffset := -4 }).2.pseudoOffsets).lookup
        ((firstSeenPseudoNames [AsmInstr.mov (.pseudo "a") (.pseudo "b")] []).get
          ⟨0, by decide⟩) =
      some (-(4 * ((0 : Int) + 1))) ∧
    ((replacePseudosWithStack [AsmInstr.mov (.pseudo "a") (.pseudo "b")]).1.all
        fun j => !instrHasPseudo j) = true ∧
    (replacePseudosWithStack [AsmInstr.mov (.pseudo "a") (.pseudo "b")]).2 =
      4 * (((firstSeenPseudoNames [AsmInstr.mov (.pseudo "a") (.pseudo "b")] []).length
        : Int)) + 4 :=
  ⟨by decide,
    (c8_amended_stack_pass [AsmInstr.mov (.pseudo "a") (.pseudo "b")]).1 0 (by decide),
    (c8_amended_stack_pass [AsmInstr.mov (.pseudo "a") (.pseudo "b")]).2.1,
    (c8_amended_stack_pass [AsmInstr.mov (.pseudo "a") (.pseudo "b")]).2.2⟩

/-- C10: `insertAllocateStack(program, n)` prepends a single
`AllocateStack` node built with value `-n`, and `AllocateStack::toASM`
prints that stored value verbatim, so a positive byte count `n` —
such as the always-positive count returned by
`replacePseudosWithStack` — is emitted as `subq $-n, %rsp`
(reserving `n` bytes would require passing `-n`). -/
theorem c10_insert_allocate_stack_negates :
    (∀ (instrs : List AsmInstr) (stackSize : Int),
      insertAllocateStack instrs stackSize = .allocateStack (-stackSize) :: instrs) ∧
    (∀ (n : Int), 0 < n →
      allocateStackToASM (-n) = "subq $-" ++ Nat.repr n.natAbs ++ ", %rsp") ∧
    (∀ (instrs : List AsmInstr), 0 < (replacePseudosWithStack instrs).2) := by
  refine ⟨fun instrs stackSize => rfl, ?_, ?_⟩
  · intro n hn
    rw [allocateStackToASM, intToString, if_pos (by omega : -n < (0 : Int)),
      Int.natAbs_neg]
    rw [show ("subq $-" : String) = "subq $" ++ "-" from rfl,
      String.append_assoc ("subq $" : String) "-" (Nat.repr n.natAbs)]
  · intro instrs
    obtain ⟨⟨hoff, hstk⟩, hnp⟩ :=
      replacePseudosGo_inv instrs { pseudoOffsets := [], stackOffset := -4 } []
        ⟨rfl, by norm_num⟩
    show (0 : Int) <
      -(replacePseudosGo instrs { pseudoOffsets := [], stackOffset := -4 }).2.stackOffset
    rw [hstk]
    have : (0 : Int) ≤ (([] : List String).length : Int) := by norm_num
    omega

/-- C10 witness: inserting the byte count 8 emits `subq $-8, %rsp`. -/
theorem c10_insert_allocate_stack_negates_witness :
    insertAllocateStack [AsmInstr.ret] 8 = .allocateStack (-8) :: [AsmInstr.ret] ∧
    allocateStackToASM (-8) = "subq $-" ++ Nat.repr (8 : Int).natAbs ++ ", %rsp" ∧
    0 < (replacePseudosWithStack [AsmInstr.ret]).2 :=
  ⟨c10_insert_allocate_stack_negates.1 [AsmInstr.ret] 8,
    c10_insert_allocate_stack_negates.2.1 8 (by decide),
    c10_insert_allocate_stack_negates.2.2 [AsmInstr.ret]⟩

end AthosC
